import Mathlib

/-!
Verification of the stitcher geometry core (stitcher.cpp).

The C++ source is embedded shallowly:
* `uint32_t` state members are modelled as `Nat`; `int32_t` rectangle
  members as `Int`.
* Every C++ conversion between the two widths is made explicit: `u32 x`
  is the value of `x` reduced into a `uint32_t` (mod 2^32) and `i32 x`
  the value of `x` reduced into an `int32_t` (two's complement).
  Arithmetic performed by C++ in `unsigned` goes through `u32`;
  assignments to `int32_t` fields go through `i32`.  Plain signed
  `int` arithmetic (undefined on overflow, exact in every valid run)
  is modelled by unbounded `Int` arithmetic.
* `float` angle arithmetic of `mark_centers` is modelled over `ℚ`.
* `XCAM_ASSERT` is a release no-op and is modelled as such;
  `XCAM_FAIL_RETURN` is the error path and is modelled exactly.
* The per-camera arrays of the `Stitcher` object are modelled as total
  functions from `Nat`; the stage methods are state transformers
  `StitcherState → XCamReturn × StitcherState`.
-/

namespace XCam

/-- Value of an expression stored into a `uint32_t`. -/
def u32 (x : Int) : Int := x % 4294967296

/-- Value of an expression stored into an `int32_t` (two's complement). -/
def i32 (x : Int) : Int := (x + 2147483648) % 4294967296 - 2147483648

/-- Subset of the XCamReturn error codes used by the stitcher core. -/
inductive XCamReturn where
  | noError
  | errorParam
  | errorOrder
  | errorUnknown
deriving DecidableEq

/-- Integer pixel rectangle (int32_t fields in the source). -/
structure Rect where
  pos_x : Int := 0
  pos_y : Int := 0
  width : Int := 0
  height : Int := 0
deriving DecidableEq

/-- Per-camera crop margins (uint32_t fields). -/
structure ImageCropInfo where
  left : Nat := 0
  right : Nat := 0
  top : Nat := 0
  bottom : Nat := 0
deriving DecidableEq

/-- A camera's angular field of view and native pixel size.  The two
angle fields are C++ floats, modelled over `ℚ`. -/
structure RoundViewSlice where
  hori_angle_start : ℚ := 0
  hori_angle_range : ℚ := 0
  width : Nat := 0
  height : Nat := 0
deriving DecidableEq

/-- Camera description; only the slice view is read by this core. -/
structure CameraInfo where
  slice_view : RoundViewSlice := {}
deriving DecidableEq

/-- Derived center mark: matching source and output pixel columns. -/
structure CenterMark where
  slice_center_x : Nat := 0
  out_center_x : Nat := 0
deriving DecidableEq

/-- Overlap band of one ring-adjacent camera pair: in the left source,
in the right source, and in the output frame. -/
structure ImageOverlapInfo where
  left : Rect := {}
  right : Rect := {}
  out_area : Rect := {}
deriving DecidableEq

/-- One verbatim copy instruction: source camera, source rectangle,
destination rectangle. -/
structure CopyArea where
  in_idx : Nat := 0
  in_area : Rect := {}
  out_area : Rect := {}
deriving DecidableEq

/-- The mutable state of a `Stitcher` object. -/
structure StitcherState where
  alignment_x : Nat := 1
  alignment_y : Nat := 1
  output_width : Nat := 0
  output_height : Nat := 0
  out_start_angle : ℚ := -180
  camera_num : Nat := 0
  is_crop_set : Bool := false
  is_center_marked : Bool := false
  is_overlap_set : Bool := false
  camera_info : Nat → CameraInfo := fun _ => {}
  crop_info : Nat → ImageCropInfo := fun _ => {}
  center_marks : Nat → CenterMark := fun _ => {}
  overlap_info : Nat → ImageOverlapInfo := fun _ => {}
  copy_areas : List CopyArea := []

/-- Modelled from the spec: the camera-count bound `MAX_CAMERAS`
(`XCAM_STITCH_MAX_CAMERAS`, defined in the header, which is not part of
the provided sources; the spec gives a fixed maximum, e.g. 8). -/
def XCAM_STITCH_MAX_CAMERAS : Nat := 8

/-- Modelled from the spec: `format_angle` (defined in the header, not
part of the provided sources) normalizes an angle modulo 360 into
`[0, 360)`. -/
def format_angle (a : ℚ) : ℚ := a - 360 * ⌊a / 360⌋

/-- Modelled from the spec: `XCAM_ALIGN_AROUND (v, a)` (header macro,
not part of the provided sources) rounds `v` to the nearest multiple of
the alignment `a`, computed in integer arithmetic as
`(v + a / 2) / a * a`. -/
def align_around (v a : Nat) : Nat := (v + a / 2) / a * a

/-- `merge_neighbor_area` (stitcher.cpp, lines 29-47).  The C++ bool
result together with the `merged` out-parameter becomes an `Option`. -/
def merge_neighbor_area (current next : CopyArea) : Option CopyArea :=
  if current.in_idx = next.in_idx ∧
      current.in_area.pos_x + current.in_area.width = next.in_area.pos_x ∧
      current.out_area.pos_x + current.out_area.width = next.out_area.pos_x then
    some { current with
      in_area := { current.in_area with
        pos_x := current.in_area.pos_x
        width := current.in_area.width + next.in_area.width }
      out_area := { current.out_area with
        pos_x := current.out_area.pos_x
        width := current.out_area.width + next.out_area.width } }
  else
    none

/-- `split_area_by_out` (stitcher.cpp, lines 49-72).  The C++ bool
result with the two out-parameters becomes an `Option` pair. -/
def split_area_by_out (area : CopyArea) (round_width : Nat) :
    Option (CopyArea × CopyArea) :=
  if area.out_area.pos_x + area.out_area.width > i32 (round_width : Int) then
    let aw : Int := i32 (u32 ((round_width : Int) - area.out_area.pos_x))
    let split_a : CopyArea :=
      { area with
        out_area := { area.out_area with width := aw }
        in_area := { area.in_area with width := aw } }
    let split_b : CopyArea :=
      { area with
        in_area := { area.in_area with
          pos_x := area.in_area.pos_x + aw
          width := area.in_area.width - aw }
        out_area := { area.out_area with
          pos_x := 0
          width := area.in_area.width - aw } }
    some (split_a, split_b)
  else
    none

/-- `Stitcher::set_camera_num` (stitcher.cpp, lines 100-109). -/
def set_camera_num (s : StitcherState) (num : Nat) : Bool × StitcherState :=
  if num ≤ XCAM_STITCH_MAX_CAMERAS then
    (true, { s with camera_num := num })
  else
    (false, s)

/-- `Stitcher::set_camera_info` (stitcher.cpp, lines 111-120). -/
def set_camera_info (s : StitcherState) (index : Nat) (info : CameraInfo) :
    Bool × StitcherState :=
  if index < s.camera_num then
    (true, { s with camera_info := Function.update s.camera_info index info })
  else
    (false, s)

/-- `Stitcher::set_crop_info` (stitcher.cpp, lines 122-132). -/
def set_crop_info (s : StitcherState) (index : Nat) (info : ImageCropInfo) :
    Bool × StitcherState :=
  if index < s.camera_num then
    (true, { s with
      crop_info := Function.update s.crop_info index info
      is_crop_set := true })
  else
    (false, s)

/-- `Stitcher::estimate_coarse_crops` (stitcher.cpp, lines 181-195). -/
def estimate_coarse_crops (s : StitcherState) : XCamReturn × StitcherState :=
  if s.is_crop_set then
    (XCamReturn.noError, s)
  else
    (XCamReturn.noError, { s with
      crop_info := fun i => if i < s.camera_num then {} else s.crop_info i
      is_crop_set := true })

/-- Loop body of `Stitcher::mark_centers` (stitcher.cpp, lines 210-238)
for camera `i`: the computed center mark, or `none` on the
`center_in_slice < slice.hori_angle_range` parameter failure. -/
def mark_camera (s : StitcherState) (i : Nat) : Option CenterMark :=
  let slice := (s.camera_info i).slice_view
  let constraint_margin : Nat := 2 * s.alignment_x
  let center_angle : ℚ := (i : ℚ) * 360 / (s.camera_num : ℚ)
  let out_pos0 : Nat :=
    (⌊format_angle (center_angle - s.out_start_angle) / 360 * (s.output_width : ℚ)⌋).toNat
  let out_pos : Nat :=
    if u32 ((s.output_width : Int) - (out_pos0 : Int)) < (constraint_margin : Int)
        ∨ out_pos0 < constraint_margin then 0
    else out_pos0
  let center_angle2 : ℚ :=
    format_angle ((align_around out_pos s.alignment_x : ℚ) / (s.output_width : ℚ) * 360
      - s.out_start_angle)
  let center_in_slice : ℚ := format_angle (center_angle2 - slice.hori_angle_start)
  if center_in_slice < slice.hori_angle_range then
    some { slice_center_x :=
             align_around (⌊center_in_slice / slice.hori_angle_range * (slice.width : ℚ)⌋).toNat
               s.alignment_x
           out_center_x := out_pos }
  else
    none

/-- The `for` loop of `Stitcher::mark_centers`: processes `k` cameras
starting at index `i`, writing each computed mark, stopping at the
first failure (earlier writes are kept, as in the source). -/
def mark_loop : Nat → Nat → StitcherState → XCamReturn × StitcherState
  | 0, _, s => (XCamReturn.noError, s)
  | k + 1, i, s =>
    match mark_camera s i with
    | some cm =>
        mark_loop k (i + 1) { s with center_marks := Function.update s.center_marks i cm }
    | none => (XCamReturn.errorParam, s)

/-- `Stitcher::mark_centers` (stitcher.cpp, lines 198-242): early
return when already marked, ordering error without cameras, otherwise
the marking loop; on loop success the completion flag is set. -/
def mark_centers (s : StitcherState) : XCamReturn × StitcherState :=
  if s.is_center_marked then
    (XCamReturn.noError, s)
  else if 0 < s.camera_num then
    if (mark_loop s.camera_num 0 s).1 = XCamReturn.noError then
      (XCamReturn.noError, { (mark_loop s.camera_num 0 s).2 with is_center_marked := true })
    else
      mark_loop s.camera_num 0 s
  else
    (XCamReturn.errorOrder, s)

/-- `(idx + 1) % _camera_num`, the ring successor used by
`estimate_overlap` and `update_copy_areas`. -/
def next_cam (s : StitcherState) (i : Nat) : Nat := (i + 1) % s.camera_num

/-- The effective output center column of the right neighbor of pair
`i`: its `out_center_x`, or `_output_width` if that is 0
(stitcher.cpp, lines 281-283 and 437-439). -/
def out_right_center (s : StitcherState) (i : Nat) : Nat :=
  if (s.center_marks (next_cam s i)).out_center_x = 0 then s.output_width
  else (s.center_marks (next_cam s i)).out_center_x

/-- `valid_left_img.pos_x` of pair `i` (stitcher.cpp, line 286). -/
def valid_left_pos (s : StitcherState) (i : Nat) : Int :=
  i32 ((s.center_marks i).slice_center_x : Int)

/-- `valid_left_img.width` of pair `i` (stitcher.cpp, line 287):
unsigned `left.width - crop.right - pos_x` stored into `int32_t`. -/
def valid_left_width (s : StitcherState) (i : Nat) : Int :=
  i32 (u32 (((s.camera_info i).slice_view.width : Int)
    - ((s.crop_info i).right : Int) - valid_left_pos s i))

/-- `valid_right_img.width` of pair `i` (stitcher.cpp, line 291). -/
def valid_right_width (s : StitcherState) (i : Nat) : Int :=
  i32 (u32 (((s.center_marks (next_cam s i)).slice_center_x : Int)
    - ((s.crop_info (next_cam s i)).left : Int)))

/-- `valid_right_img.pos_x` of pair `i` (stitcher.cpp, line 292). -/
def valid_right_pos (s : StitcherState) (i : Nat) : Int :=
  i32 (u32 (((s.center_marks (next_cam s i)).slice_center_x : Int)
    - valid_right_width s i))

/-- `merge_width` of pair `i` (stitcher.cpp, line 296):
unsigned distance between the two effective output centers. -/
def merge_width (s : StitcherState) (i : Nat) : Int :=
  u32 ((out_right_center s i : Int) - ((s.center_marks i).out_center_x : Int))

/-- `overlap_width` of pair `i` (stitcher.cpp, line 303): unsigned
`valid_left.width + valid_right.width - merge_width`. -/
def overlap_width (s : StitcherState) (i : Nat) : Int :=
  u32 (valid_left_width s i + valid_right_width s i - merge_width s i)

/-- Loop body of `Stitcher::estimate_overlap` (stitcher.cpp, lines
254-382) for pair `idx`: the three overlap rectangles, or `none` on the
`valid_left.width + valid_right.width > merge_width` failure. -/
def overlap_pair (s : StitcherState) (idx : Nat) : Option ImageOverlapInfo :=
  if valid_left_width s idx + valid_right_width s idx > i32 (merge_width s idx) then
    some
      { left :=
          { pos_x := i32 (u32 (valid_left_pos s idx + valid_left_width s idx
              - overlap_width s idx))
            width := i32 (overlap_width s idx)
            pos_y := i32 ((s.crop_info idx).top : Int)
            height := i32 (u32 (((s.camera_info idx).slice_view.height : Int)
              - ((s.crop_info idx).top : Int) - ((s.crop_info idx).bottom : Int))) }
        right :=
          { pos_x := valid_right_pos s idx
            width := i32 (overlap_width s idx)
            pos_y := i32 ((s.crop_info (next_cam s idx)).top : Int)
            height := i32 (u32 (((s.camera_info (next_cam s idx)).slice_view.height : Int)
              - ((s.crop_info (next_cam s idx)).top : Int)
              - ((s.crop_info (next_cam s idx)).bottom : Int))) }
        out_area :=
          { pos_x := i32 (u32 (((s.center_marks idx).out_center_x : Int)
              + valid_left_width s idx - overlap_width s idx))
            width := i32 (overlap_width s idx)
            pos_y := i32 ((s.crop_info idx).top : Int)
            height := i32 (u32 (((s.camera_info idx).slice_view.height : Int)
              - ((s.crop_info idx).top : Int) - ((s.crop_info idx).bottom : Int))) } }
  else
    none

/-- The `for` loop of `Stitcher::estimate_overlap`: processes `k` pairs
starting at index `idx`, writing each computed overlap, stopping at the
first failure (earlier writes are kept, as in the source). -/
def overlap_loop : Nat → Nat → StitcherState → XCamReturn × StitcherState
  | 0, _, s => (XCamReturn.noError, s)
  | k + 1, idx, s =>
    match overlap_pair s idx with
    | some info =>
        overlap_loop k (idx + 1)
          { s with overlap_info := Function.update s.overlap_info idx info }
    | none => (XCamReturn.errorUnknown, s)

/-- `Stitcher::estimate_overlap` (stitcher.cpp, lines 244-387): early
return when already set, ordering error before crop and center
resolution, otherwise the pair loop; on loop success the completion
flag is set. -/
def estimate_overlap (s : StitcherState) : XCamReturn × StitcherState :=
  if s.is_overlap_set then
    (XCamReturn.noError, s)
  else if s.is_crop_set && s.is_center_marked then
    if (overlap_loop s.camera_num 0 s).1 = XCamReturn.noError then
      (XCamReturn.noError, { (overlap_loop s.camera_num 0 s).2 with is_overlap_set := true })
    else
      overlap_loop s.camera_num 0 s
  else
    (XCamReturn.errorOrder, s)

/-- The `left` candidate copy area of camera `i`
(stitcher.cpp, lines 407-419). -/
def left_candidate (s : StitcherState) (i : Nat) : CopyArea :=
  let in_pos_x : Int := i32 ((s.center_marks i).slice_center_x : Int)
  let in_width : Int := (s.overlap_info i).left.pos_x - in_pos_x
  let in_pos_y : Int := i32 ((s.crop_info i).top : Int)
  let in_height : Int := i32 (u32 (((s.camera_info i).slice_view.height : Int)
    - ((s.crop_info i).top : Int) - ((s.crop_info i).bottom : Int)))
  { in_idx := i
    in_area := { pos_x := in_pos_x, pos_y := in_pos_y, width := in_width, height := in_height }
    out_area := { pos_x := i32 ((s.center_marks i).out_center_x : Int), pos_y := 0
                  width := in_width, height := in_height } }

/-- The `right` candidate copy area of camera `next_i`
(stitcher.cpp, lines 428-443). -/
def right_candidate (s : StitcherState) (i : Nat) : CopyArea :=
  let next_i := next_cam s i
  let in_pos_x : Int := (s.overlap_info i).right.pos_x + (s.overlap_info i).right.width
  let in_width : Int := i32 ((s.center_marks next_i).slice_center_x : Int) - in_pos_x
  let in_pos_y : Int := i32 ((s.crop_info next_i).top : Int)
  let in_height : Int := i32 (u32 (((s.camera_info next_i).slice_view.height : Int)
    - ((s.crop_info next_i).top : Int) - ((s.crop_info next_i).bottom : Int)))
  { in_idx := next_i
    in_area := { pos_x := in_pos_x, pos_y := in_pos_y, width := in_width, height := in_height }
    out_area := { pos_x := i32 (u32 ((out_right_center s i : Int) - in_width)), pos_y := 0
                  width := in_width, height := in_height } }

/-- The candidates pushed into `tmp_areas` for loop index `i` of
`update_copy_areas`: each candidate split by `split_area_by_out` when
its destination straddles `_output_width` (lines 421-426, 445-450). -/
def camera_candidates (s : StitcherState) (i : Nat) : List CopyArea :=
  let l := left_candidate s i
  let ls : List CopyArea :=
    match split_area_by_out l s.output_width with
    | some (a, b) => [a, b]
    | none => [l]
  let r := right_candidate s i
  let rs : List CopyArea :=
    match split_area_by_out r s.output_width with
    | some (a, b) => [a, b]
    | none => [r]
  ls ++ rs

/-- The full `tmp_areas` vector built by the first loop of
`update_copy_areas` (stitcher.cpp, lines 396-451). -/
def tmp_areas (s : StitcherState) : List CopyArea :=
  (List.range s.camera_num).flatMap (camera_candidates s)

/-- The greedy left-to-right merge loop of `update_copy_areas`
(stitcher.cpp, lines 469-484): if two consecutive candidates merge,
emit the merged area and advance by two, else emit the current one and
advance by one. -/
def merge_areas_pass : List CopyArea → List CopyArea
  | [] => []
  | [a] => [a]
  | a :: b :: rest =>
    match merge_neighbor_area a b with
    | some m => m :: merge_areas_pass rest
    | none => a :: merge_areas_pass (b :: rest)

/-- The whole merge phase of `update_copy_areas` (stitcher.cpp, lines
454-484): when more than two candidates exist, first try to merge the
last candidate with the first (the wraparound seam), then run the
greedy pass over the remaining sequence. -/
def merge_all (tmp : List CopyArea) : List CopyArea :=
  if 2 < tmp.length then
    match tmp.getLast?, tmp.head? with
    | some last, some first =>
      match merge_neighbor_area last first with
      | some m => m :: merge_areas_pass ((tmp.drop 1).dropLast)
      | none => merge_areas_pass tmp
    | _, _ => merge_areas_pass tmp
  else
    merge_areas_pass tmp

/-- `Stitcher::update_copy_areas` (stitcher.cpp, lines 389-489).  The
merged areas are appended to the (possibly non-empty) `_copy_areas`
member, exactly as the `push_back` calls of the source do. -/
def update_copy_areas (s : StitcherState) : XCamReturn × StitcherState :=
  if 1 < s.camera_num ∧ s.is_crop_set ∧ s.is_overlap_set then
    (XCamReturn.noError, { s with copy_areas := s.copy_areas ++ merge_all (tmp_areas s) })
  else
    (XCamReturn.errorOrder, s)

/-! Plain (wrap-free) forms of the per-pair quantities of
`estimate_overlap`, used to phrase validity hypotheses and claims.
On every valid configuration the wrapped source computations agree
with these. -/

/-- Plain form of `valid_left_img.width` of pair `i`: the left
camera's pixels from its center column to its right crop margin. -/
def vlwP (s : StitcherState) (i : Nat) : Int :=
  ((s.camera_info i).slice_view.width : Int) - ((s.crop_info i).right : Int)
    - ((s.center_marks i).slice_center_x : Int)

/-- Plain form of `valid_right_img.width` of pair `i`: the right
camera's pixels from its left crop margin to its center column. -/
def vrwP (s : StitcherState) (i : Nat) : Int :=
  ((s.center_marks (next_cam s i)).slice_center_x : Int)
    - ((s.crop_info (next_cam s i)).left : Int)

/-- Plain form of `merge_width` of pair `i`: output-space distance
between the pair's effective center columns. -/
def mwP (s : StitcherState) (i : Nat) : Int :=
  (out_right_center s i : Int) - ((s.center_marks i).out_center_x : Int)

/-- Plain form of `overlap_width` of pair `i`. -/
def owP (s : StitcherState) (i : Nat) : Int := vlwP s i + vrwP s i - mwP s i

/-- Validity ranges for pair `i`: the quantities entering
`estimate_overlap`'s arithmetic are nonnegative and far from the
32-bit boundaries (bounded by 2^30), so no wrap occurs. -/
def pair_in_range (s : StitcherState) (i : Nat) : Prop :=
  ((s.center_marks i).slice_center_x : Int) < 1073741824 ∧
  ((s.crop_info (next_cam s i)).left : Int) < 1073741824 ∧
  0 ≤ vlwP s i ∧ vlwP s i < 1073741824 ∧
  0 ≤ vrwP s i ∧ vrwP s i < 1073741824 ∧
  0 ≤ mwP s i ∧ mwP s i < 1073741824

instance (s : StitcherState) (i : Nat) : Decidable (pair_in_range s i) := by
  unfold pair_in_range
  infer_instance

/-! Destination-column coverage vocabulary for the tiling claims. -/

/-- `x` lies in the horizontal pixel range of rectangle `r`. -/
def rect_covers (r : Rect) (x : Int) : Prop :=
  r.pos_x ≤ x ∧ x < r.pos_x + r.width

/-- `x` lies in the destination x-range of copy area `a`. -/
def area_covers (a : CopyArea) (x : Int) : Prop :=
  rect_covers a.out_area x

/-- The destination x-ranges of `a` and `b` are disjoint. -/
def disjointX (a b : CopyArea) : Prop :=
  ∀ x : Int, ¬(area_covers a x ∧ area_covers b x)

/-- Some copy area of the list covers output column `x`. -/
def covers_list (l : List CopyArea) (x : Int) : Prop :=
  ∃ a ∈ l, area_covers a x

/-! Concrete states used to witness the theorems. -/

/-- The default-constructed stitcher: no cameras, no flags set. -/
def stateA : StitcherState := {}

/-- Two cameras with crop and overlap flags set and all-zero derived
data: `update_copy_areas` accepts this state. -/
def stateB : StitcherState :=
  { camera_num := 2, is_crop_set := true, is_overlap_set := true }

/-- Two cameras, output width 1000: camera 0 marks successfully at
source column 100 / output column 500, camera 1 fails the
center-in-slice check (its slice starts at 0° but the computed center
angle is 180°). -/
def stateC : StitcherState :=
  { alignment_x := 1
    output_width := 1000
    out_start_angle := -180
    camera_num := 2
    camera_info := fun i =>
      if i = 0 then
        { slice_view := { hori_angle_start := -50, hori_angle_range := 100
                          width := 200, height := 10 } }
      else
        { slice_view := { hori_angle_start := 0, hori_angle_range := 100
                          width := 200, height := 10 } } }

/-- A valid two-camera configuration, output width 360, after crop
resolution and center marking: marks (125, 180) and (125, 0). -/
def stateD : StitcherState :=
  { alignment_x := 1
    output_width := 360
    output_height := 10
    out_start_angle := -180
    camera_num := 2
    is_crop_set := true
    is_center_marked := true
    is_overlap_set := false
    camera_info := fun i =>
      if i = 0 then
        { slice_view := { hori_angle_start := -50, hori_angle_range := 100
                          width := 250, height := 10 } }
      else
        { slice_view := { hori_angle_start := 130, hori_angle_range := 100
                          width := 250, height := 10 } }
    crop_info := fun _ => {}
    center_marks := fun i =>
      if i = 0 then { slice_center_x := 125, out_center_x := 180 }
      else { slice_center_x := 125, out_center_x := 0 }
    overlap_info := fun _ => {}
    copy_areas := [] }

/-- `stateD` before center marking: `mark_centers` succeeds on it and
computes exactly the marks stored in `stateD`. -/
def stateE : StitcherState :=
  { stateD with is_center_marked := false, center_marks := fun _ => {} }

/-- `stateC` after the marking loop has processed camera 0. -/
def stateC1 : StitcherState :=
  { stateC with center_marks :=
      Function.update stateC.center_marks 0 { slice_center_x := 100, out_center_x := 500 } }

/-- `stateE` after the marking loop has processed camera 0. -/
def stateE1 : StitcherState :=
  { stateE with center_marks :=
      Function.update stateE.center_marks 0 { slice_center_x := 125, out_center_x := 180 } }

/-- `stateE` after the marking loop has processed both cameras. -/
def stateE2 : StitcherState :=
  { stateE1 with center_marks :=
      Function.update stateE1.center_marks 1 { slice_center_x := 125, out_center_x := 0 } }

/-! ## Basic facts about the 32-bit coercions -/

theorem u32_id {x : Int} (h0 : 0 ≤ x) (h1 : x < 4294967296) : u32 x = x := by
  unfold u32; omega

theorem i32_id {x : Int} (h0 : 0 ≤ x) (h1 : x < 2147483648) : i32 x = x := by
  unfold i32; omega

theorem i32_u32_id {x : Int} (h0 : 0 ≤ x) (h1 : x < 2147483648) : i32 (u32 x) = x := by
  unfold i32 u32; omega

/-! ## Claim C3: split_area_by_out -/

/-- Claim C3: for every CopyArea whose `out_area.pos_x` lies in
`[0, round_width)`, whose `out_area.width` lies in `(0, round_width)`,
and whose `in_area.width` equals its `out_area.width`
(with `round_width` a representable `int32_t` value):
if `out_area.pos_x + out_area.width > round_width` then
`split_area_by_out` succeeds and the two pieces satisfy
`split_a.out_area.width + split_b.out_area.width = out_area.width`,
`split_a.in_area.width + split_b.in_area.width = in_area.width`,
`split_b.out_area.pos_x = 0` and
`split_b.in_area.pos_x = in_area.pos_x + split_a.in_area.width`;
otherwise it returns `none`. -/
theorem claim_C3 (area : CopyArea) (round_width : Nat)
    (h0 : 0 ≤ area.out_area.pos_x)
    (h1 : area.out_area.pos_x < (round_width : Int))
    (h2 : 0 < area.out_area.width)
    (h3 : area.out_area.width < (round_width : Int))
    (h4 : area.in_area.width = area.out_area.width)
    (h5 : (round_width : Int) < 2147483648) :
    (area.out_area.pos_x + area.out_area.width > (round_width : Int) →
      ∃ a b, split_area_by_out area round_width = some (a, b) ∧
        a.out_area.width + b.out_area.width = area.out_area.width ∧
        a.in_area.width + b.in_area.width = area.in_area.width ∧
        b.out_area.pos_x = 0 ∧
        b.in_area.pos_x = area.in_area.pos_x + a.in_area.width) ∧
    (¬(area.out_area.pos_x + area.out_area.width > (round_width : Int)) →
      split_area_by_out area round_width = none) := by
  have hi : i32 (round_width : Int) = (round_width : Int) := i32_id (by omega) h5
  have haw : i32 (u32 ((round_width : Int) - area.out_area.pos_x))
      = (round_width : Int) - area.out_area.pos_x := i32_u32_id (by omega) (by omega)
  constructor
  · intro h
    unfold split_area_by_out
    rw [hi, if_pos h]
    refine ⟨_, _, rfl, ?_, ?_, ?_, ?_⟩ <;> simp only [haw] <;> omega
  · intro h
    unfold split_area_by_out
    rw [hi, if_neg h]

/-- Witness for C3 at a concrete straddling rectangle. -/
theorem claim_C3_witness :
    ((0 : Int) ≤ 300 ∧ (300 : Int) < 400 ∧ (0 : Int) < 200 ∧ (200 : Int) < 400 ∧
      (400 : Int) < 2147483648) ∧
    (∃ a b, split_area_by_out
        { in_idx := 0
          in_area := { pos_x := 50, pos_y := 0, width := 200, height := 1 }
          out_area := { pos_x := 300, pos_y := 0, width := 200, height := 1 } } 400
        = some (a, b) ∧
      a.out_area.width + b.out_area.width = 200 ∧
      a.in_area.width + b.in_area.width = 200 ∧
      b.out_area.pos_x = 0 ∧
      b.in_area.pos_x = 50 + a.in_area.width) :=
  ⟨by norm_num,
    (claim_C3
      { in_idx := 0
        in_area := { pos_x := 50, pos_y := 0, width := 200, height := 1 }
        out_area := { pos_x := 300, pos_y := 0, width := 200, height := 1 } } 400
      (by norm_num) (by norm_num) (by norm_num) (by norm_num) (by norm_num)
      (by norm_num)).1 (by norm_num)⟩

/-! ## Claim C4: merge_neighbor_area -/

/-- Claim C4: `merge_neighbor_area current next` succeeds exactly when
the two areas reference the same source camera and are contiguous in
both source and destination x-ranges; when it succeeds, the merged
area's destination and source widths are the sums of the inputs'
widths, so the total destination width covered is unchanged. -/
theorem claim_C4 (current next : CopyArea) :
    ((merge_neighbor_area current next).isSome ↔
      (current.in_idx = next.in_idx ∧
        current.in_area.pos_x + current.in_area.width = next.in_area.pos_x ∧
        current.out_area.pos_x + current.out_area.width = next.out_area.pos_x)) ∧
    (∀ m, merge_neighbor_area current next = some m →
      m.out_area.width = current.out_area.width + next.out_area.width ∧
      m.in_area.width = current.in_area.width + next.in_area.width) := by
  unfold merge_neighbor_area
  split
  · next h =>
    refine ⟨by simp [h], ?_⟩
    intro m hm
    cases hm
    exact ⟨rfl, rfl⟩
  · next h =>
    refine ⟨by simp [h], ?_⟩
    intro m hm
    cases hm

/-- Witness for C4 at a concrete contiguous pair. -/
theorem claim_C4_witness :
    ((merge_neighbor_area
        { in_idx := 3
          in_area := { pos_x := 0, pos_y := 0, width := 5, height := 1 }
          out_area := { pos_x := 10, pos_y := 0, width := 5, height := 1 } }
        { in_idx := 3
          in_area := { pos_x := 5, pos_y := 0, width := 3, height := 1 }
          out_area := { pos_x := 15, pos_y := 0, width := 3, height := 1 } }).isSome ↔
      ((3 : Nat) = 3 ∧ (0 : Int) + 5 = 5 ∧ (10 : Int) + 5 = 15)) ∧
    (∀ m, merge_neighbor_area
        { in_idx := 3
          in_area := { pos_x := 0, pos_y := 0, width := 5, height := 1 }
          out_area := { pos_x := 10, pos_y := 0, width := 5, height := 1 } }
        { in_idx := 3
          in_area := { pos_x := 5, pos_y := 0, width := 3, height := 1 }
          out_area := { pos_x := 15, pos_y := 0, width := 3, height := 1 } } = some m →
      m.out_area.width = 5 + 3 ∧ m.in_area.width = 5 + 3) :=
  claim_C4
    { in_idx := 3
      in_area := { pos_x := 0, pos_y := 0, width := 5, height := 1 }
      out_area := { pos_x := 10, pos_y := 0, width := 5, height := 1 } }
    { in_idx := 3
      in_area := { pos_x := 5, pos_y := 0, width := 3, height := 1 }
      out_area := { pos_x := 15, pos_y := 0, width := 3, height := 1 } }

/-! ## Claim C8: set_camera_num -/

/-- Counterexample to claim C8 as stated: a camera count of 1 (below
the claimed minimum of 2) is accepted by `set_camera_num`, which
returns `true` and stores the count. -/
theorem claim_C8_counterexample :
    (set_camera_num stateA 1).1 = true ∧ (set_camera_num stateA 1).2.camera_num = 1 := by
  decide

/-- Claim C8 (amended): `set_camera_num` succeeds exactly when the
requested count is at most `MAX_CAMERAS`; a larger count fails and
leaves the stored camera count (indeed the whole state) unchanged.
Counts 0 and 1 are accepted here; too-small counts are rejected only
later, by the `camera_num > 1` check of `update_copy_areas`. -/
theorem claim_C8_amended (s : StitcherState) (num : Nat) :
    ((set_camera_num s num).1 = true ↔ num ≤ XCAM_STITCH_MAX_CAMERAS) ∧
    ((set_camera_num s num).1 = true → (set_camera_num s num).2.camera_num = num) ∧
    (XCAM_STITCH_MAX_CAMERAS < num → (set_camera_num s num).2 = s) := by
  unfold set_camera_num
  split
  · next h => exact ⟨by simp [h], fun _ => rfl, fun hlt => absurd h (by omega)⟩
  · next h => exact ⟨by simp [h], by simp, fun _ => rfl⟩

/-- Witness for the amended C8 at the rejected count 9. -/
theorem claim_C8_witness :
    XCAM_STITCH_MAX_CAMERAS < 9 ∧ (set_camera_num stateA 9).2 = stateA :=
  ⟨by decide, (claim_C8_amended stateA 9).2.2 (by decide)⟩

/-! ## Claim C9: ordering errors mutate nothing -/

/-- Claim C9: calling `estimate_overlap` before both the crop stage
and center marking have completed returns an ordering error and leaves
the state exactly unchanged; calling `update_copy_areas` with
`camera_num ≤ 1` or with crop or overlap information not yet set
likewise returns an ordering error and leaves the state unchanged. -/
theorem claim_C9 (s t : StitcherState)
    (h1 : s.is_overlap_set = false)
    (h2 : s.is_crop_set = false ∨ s.is_center_marked = false)
    (h3 : t.camera_num ≤ 1 ∨ t.is_crop_set = false ∨ t.is_overlap_set = false) :
    estimate_overlap s = (XCamReturn.errorOrder, s) ∧
    update_copy_areas t = (XCamReturn.errorOrder, t) := by
  constructor
  · unfold estimate_overlap
    rcases h2 with h2 | h2 <;> simp [h1, h2]
  · unfold update_copy_areas
    rw [if_neg]
    rcases h3 with h3 | h3 | h3 <;> simp [h3] <;> omega

/-- Witness for C9 at the default-constructed stitcher. -/
theorem claim_C9_witness :
    (stateA.is_overlap_set = false ∧ stateA.is_crop_set = false ∧ stateA.camera_num ≤ 1) ∧
    estimate_overlap stateA = (XCamReturn.errorOrder, stateA) ∧
    update_copy_areas stateA = (XCamReturn.errorOrder, stateA) :=
  ⟨⟨rfl, rfl, by decide⟩,
    claim_C9 stateA stateA rfl (Or.inl rfl) (Or.inl (by decide))⟩

/-! ## Claim C10: set_crop_info sets the flag for the whole configuration -/

/-- Claim C10: one successful `set_crop_info` call for a valid index
sets the crop-stage completion flag, so a later
`estimate_coarse_crops` call is an exact no-op, and the crop margins of
every other camera are left exactly as they were. -/
theorem claim_C10 (s : StitcherState) (i : Nat) (info : ImageCropInfo)
    (h : i < s.camera_num) :
    (set_crop_info s i info).1 = true ∧
    (set_crop_info s i info).2.is_crop_set = true ∧
    estimate_coarse_crops (set_crop_info s i info).2
      = (XCamReturn.noError, (set_crop_info s i info).2) ∧
    (∀ k, k ≠ i → (set_crop_info s i info).2.crop_info k = s.crop_info k) := by
  unfold set_crop_info
  rw [if_pos h]
  refine ⟨rfl, rfl, by unfold estimate_coarse_crops; rw [if_pos] <;> rfl, ?_⟩
  intro k hk
  exact Function.update_noteq hk info s.crop_info

/-- Witness for C10 at a concrete state and index. -/
theorem claim_C10_witness :
    0 < stateB.camera_num ∧
    (set_crop_info stateB 0 { left := 1, right := 2, top := 3, bottom := 4 }).1 = true ∧
    estimate_coarse_crops (set_crop_info stateB 0 { left := 1, right := 2, top := 3, bottom := 4 }).2
      = (XCamReturn.noError,
         (set_crop_info stateB 0 { left := 1, right := 2, top := 3, bottom := 4 }).2) ∧
    (set_crop_info stateB 0 { left := 1, right := 2, top := 3, bottom := 4 }).2.crop_info 1
      = stateB.crop_info 1 :=
  ⟨by decide,
    (claim_C10 stateB 0 { left := 1, right := 2, top := 3, bottom := 4 } (by decide)).1,
    (claim_C10 stateB 0 { left := 1, right := 2, top := 3, bottom := 4 } (by decide)).2.2.1,
    (claim_C10 stateB 0 { left := 1, right := 2, top := 3, bottom := 4 } (by decide)).2.2.2 1
      (by decide)⟩

/-! ## The center-marking loop: evaluation and structure -/

/-- `mark_camera` never reads the center-mark array, so updating it
does not change the per-camera computation. -/
theorem mark_camera_marks (s : StitcherState) (f : Nat → CenterMark) (i : Nat) :
    mark_camera { s with center_marks := f } i = mark_camera s i := rfl

/-- Unfolding equation of `mark_loop` at a successor count. -/
theorem mark_loop_succ (k i : Nat) (s : StitcherState) :
    mark_loop (k + 1) i s
      = match mark_camera s i with
        | some cm =>
            mark_loop k (i + 1) { s with center_marks := Function.update s.center_marks i cm }
        | none => (XCamReturn.errorParam, s) := rfl

/-- `mark_loop` only ever modifies the center-mark array. -/
theorem mark_loop_shape : ∀ (k i : Nat) (s : StitcherState),
    ∃ g, (mark_loop k i s).2 = { s with center_marks := g } := by
  intro k
  induction k with
  | zero => exact fun i s => ⟨s.center_marks, rfl⟩
  | succ k ih =>
    intro i s
    rw [mark_loop_succ]
    cases h : mark_camera s i with
    | none => exact ⟨s.center_marks, rfl⟩
    | some cm =>
      obtain ⟨g, hg⟩ :=
        ih (i + 1) { s with center_marks := Function.update s.center_marks i cm }
      exact ⟨g, hg⟩

/-- Evaluation: camera 0 of `stateC` marks at source column 100 and
output column 500. -/
theorem mark_camera_stateC_0 :
    mark_camera stateC 0 = some { slice_center_x := 100, out_center_x := 500 } := by
  have t5 : Int.toNat 500 = 500 := rfl
  have t1 : Int.toNat 100 = 100 := rfl
  have f1 : (⌊(1 / 2 : ℚ)⌋ : Int) = 0 := by norm_num [Int.floor_eq_iff]
  have f2 : (⌊(5 / 36 : ℚ)⌋ : Int) = 0 := by norm_num [Int.floor_eq_iff]
  unfold mark_camera stateC
  norm_num [format_angle, align_around, u32, t5, t1, f1, f2]

/-- Evaluation: camera 1 of `stateC` fails the center-in-slice check
(computed center angle 180 is outside its slice, which starts at 0
with range 100). -/
theorem mark_camera_stateC_1 : mark_camera stateC 1 = none := by
  have f1 : (⌊(1 / 2 : ℚ)⌋ : Int) = 0 := by norm_num [Int.floor_eq_iff]
  unfold mark_camera stateC
  norm_num [format_angle, align_around, u32, f1]

/-- Evaluation: camera 0 of `stateE` marks at (125, 180). -/
theorem mark_camera_stateE_0 :
    mark_camera stateE 0 = some { slice_center_x := 125, out_center_x := 180 } := by
  have t5 : Int.toNat 180 = 180 := rfl
  have t1 : Int.toNat 125 = 125 := rfl
  have f1 : (⌊(1 / 2 : ℚ)⌋ : Int) = 0 := by norm_num [Int.floor_eq_iff]
  have f2 : (⌊(5 / 36 : ℚ)⌋ : Int) = 0 := by norm_num [Int.floor_eq_iff]
  unfold mark_camera stateE stateD
  norm_num [format_angle, align_around, u32, t5, t1, f1, f2]

/-- Evaluation: camera 1 of `stateE` marks at (125, 0): its ideal
output column snaps to the wraparound seam. -/
theorem mark_camera_stateE_1 :
    mark_camera stateE 1 = some { slice_center_x := 125, out_center_x := 0 } := by
  have t1 : Int.toNat 125 = 125 := rfl
  have f1 : (⌊(1 / 2 : ℚ)⌋ : Int) = 0 := by norm_num [Int.floor_eq_iff]
  have f2 : (⌊(5 / 36 : ℚ)⌋ : Int) = 0 := by norm_num [Int.floor_eq_iff]
  unfold mark_camera stateE stateD
  norm_num [format_angle, align_around, u32, t1, f1, f2]

/-- `mark_loop` stepping on a successfully marked camera. -/
theorem mark_loop_step_some (k i : Nat) (s : StitcherState) (cm : CenterMark)
    (h : mark_camera s i = some cm) :
    mark_loop (k + 1) i s
      = mark_loop k (i + 1) { s with center_marks := Function.update s.center_marks i cm } := by
  rw [mark_loop_succ, h]

/-- `mark_loop` stopping at a failing camera. -/
theorem mark_loop_step_none (k i : Nat) (s : StitcherState)
    (h : mark_camera s i = none) :
    mark_loop (k + 1) i s = (XCamReturn.errorParam, s) := by
  rw [mark_loop_succ, h]

/-- Full run: `mark_centers` on `stateC` fails on camera 1 with a
parameter error, after having already written camera 0's mark. -/
theorem mark_centers_stateC : mark_centers stateC = (XCamReturn.errorParam, stateC1) := by
  have hrun : mark_loop 2 0 stateC = (XCamReturn.errorParam, stateC1) :=
    calc mark_loop 2 0 stateC
        = mark_loop 1 1 stateC1 := mark_loop_step_some 1 0 stateC _ mark_camera_stateC_0
      _ = (XCamReturn.errorParam, stateC1) :=
          mark_loop_step_none 0 1 stateC1
            ((mark_camera_marks stateC _ 1).trans mark_camera_stateC_1)
  unfold mark_centers
  rw [if_neg (by decide), if_pos (by decide), show stateC.camera_num = 2 from rfl, hrun,
    if_neg (by decide)]

/-- Full run: `mark_centers` succeeds on `stateE`, writing both marks
and setting the completion flag. -/
theorem mark_centers_stateE :
    mark_centers stateE = (XCamReturn.noError, { stateE2 with is_center_marked := true }) := by
  have hrun : mark_loop 2 0 stateE = (XCamReturn.noError, stateE2) :=
    calc mark_loop 2 0 stateE
        = mark_loop 1 1 stateE1 := mark_loop_step_some 1 0 stateE _ mark_camera_stateE_0
      _ = mark_loop 0 2 stateE2 :=
          mark_loop_step_some 0 1 stateE1 _
            ((mark_camera_marks stateE _ 1).trans mark_camera_stateE_1)
      _ = (XCamReturn.noError, stateE2) := rfl
  unfold mark_centers
  rw [if_neg (by decide), if_pos (by decide), show stateE.camera_num = 2 from rfl, hrun,
    if_pos rfl]

/-! ## Stage flags and idempotence -/

/-- `estimate_coarse_crops` always reports the crop stage complete. -/
theorem estimate_coarse_crops_flag (s : StitcherState) :
    (estimate_coarse_crops s).2.is_crop_set = true := by
  unfold estimate_coarse_crops
  split
  · next h => exact h
  · rfl

/-- `estimate_coarse_crops` is an exact no-op once crops are set. -/
theorem estimate_coarse_crops_set (s : StitcherState) (h : s.is_crop_set = true) :
    estimate_coarse_crops s = (XCamReturn.noError, s) := by
  unfold estimate_coarse_crops
  rw [if_pos h]

/-- `mark_centers` is an exact no-op once centers are marked. -/
theorem mark_centers_marked (s : StitcherState) (h : s.is_center_marked = true) :
    mark_centers s = (XCamReturn.noError, s) := by
  unfold mark_centers
  rw [if_pos h]

/-- A successful `mark_centers` leaves the completion flag set. -/
theorem mark_centers_success_flag (s : StitcherState)
    (h : (mark_centers s).1 = XCamReturn.noError) :
    (mark_centers s).2.is_center_marked = true := by
  unfold mark_centers at h ⊢
  by_cases hm : s.is_center_marked = true
  · rw [if_pos hm]
    exact hm
  · rw [if_neg hm] at h ⊢
    by_cases hn : 0 < s.camera_num
    · rw [if_pos hn] at h ⊢
      by_cases hl : (mark_loop s.camera_num 0 s).1 = XCamReturn.noError
      · rw [if_pos hl]
      · rw [if_neg hl] at h
        exact absurd h hl
    · rw [if_neg hn] at h
      cases h

/-- `estimate_overlap` is an exact no-op once overlaps are set. -/
theorem estimate_overlap_set (s : StitcherState) (h : s.is_overlap_set = true) :
    estimate_overlap s = (XCamReturn.noError, s) := by
  unfold estimate_overlap
  rw [if_pos h]

/-- A successful `estimate_overlap` leaves the completion flag set. -/
theorem estimate_overlap_success_flag (s : StitcherState)
    (h : (estimate_overlap s).1 = XCamReturn.noError) :
    (estimate_overlap s).2.is_overlap_set = true := by
  unfold estimate_overlap at h ⊢
  by_cases hm : s.is_overlap_set = true
  · rw [if_pos hm]
    exact hm
  · rw [if_neg hm] at h ⊢
    by_cases hn : (s.is_crop_set && s.is_center_marked) = true
    · rw [if_pos hn] at h ⊢
      by_cases hl : (overlap_loop s.camera_num 0 s).1 = XCamReturn.noError
      · rw [if_pos hl]
      · rw [if_neg hl] at h
        exact absurd h hl
    · rw [if_neg hn] at h
      cases h

/-- Unfolding equation of `overlap_loop` at a successor count. -/
theorem overlap_loop_succ (k idx : Nat) (s : StitcherState) :
    overlap_loop (k + 1) idx s
      = match overlap_pair s idx with
        | some info =>
            overlap_loop k (idx + 1)
              { s with overlap_info := Function.update s.overlap_info idx info }
        | none => (XCamReturn.errorUnknown, s) := rfl

/-- `overlap_loop` only ever modifies the overlap array. -/
theorem overlap_loop_shape : ∀ (k idx : Nat) (s : StitcherState),
    ∃ g, (overlap_loop k idx s).2 = { s with overlap_info := g } := by
  intro k
  induction k with
  | zero => exact fun idx s => ⟨s.overlap_info, rfl⟩
  | succ k ih =>
    intro idx s
    rw [overlap_loop_succ]
    cases h : overlap_pair s idx with
    | none => exact ⟨s.overlap_info, rfl⟩
    | some info =>
      obtain ⟨g, hg⟩ :=
        ih (idx + 1) { s with overlap_info := Function.update s.overlap_info idx info }
      exact ⟨g, hg⟩

/-! ## Claim C6: idempotence of the four stages -/

/-- Counterexample to claim C6 as stated: `update_copy_areas` has no
completion flag; on `stateB` a second invocation succeeds again but
appends a duplicate set of copy areas, changing the copy-area list. -/
theorem claim_C6_counterexample :
    (update_copy_areas stateB).1 = XCamReturn.noError ∧
    (update_copy_areas (update_copy_areas stateB).2).1 = XCamReturn.noError ∧
    (update_copy_areas (update_copy_areas stateB).2).2.copy_areas
      ≠ (update_copy_areas stateB).2.copy_areas := by
  decide

/-- Claim C6 (amended): the three flag-guarded stages
(`estimate_coarse_crops`, `mark_centers`, `estimate_overlap`) are
idempotent: re-invoking one after a successful invocation returns
success and leaves the state exactly unchanged.  `update_copy_areas`
is not idempotent: it has no completion flag, and a second successful
invocation appends a duplicate set of copy areas. -/
theorem claim_C6_amended (s1 s2 s3 : StitcherState) :
    estimate_coarse_crops (estimate_coarse_crops s1).2
      = (XCamReturn.noError, (estimate_coarse_crops s1).2) ∧
    ((mark_centers s2).1 = XCamReturn.noError →
      mark_centers (mark_centers s2).2 = (XCamReturn.noError, (mark_centers s2).2)) ∧
    ((estimate_overlap s3).1 = XCamReturn.noError →
      estimate_overlap (estimate_overlap s3).2
        = (XCamReturn.noError, (estimate_overlap s3).2)) := by
  refine ⟨estimate_coarse_crops_set _ (estimate_coarse_crops_flag s1), ?_, ?_⟩
  · intro h
    exact mark_centers_marked _ (mark_centers_success_flag s2 h)
  · intro h
    exact estimate_overlap_set _ (estimate_overlap_success_flag s3 h)

/-- Witness for the amended C6: concrete successful first invocations
of `mark_centers` (on `stateE`) and `estimate_overlap` (on `stateD`),
with the second invocations exact no-ops. -/
theorem claim_C6_witness :
    (mark_centers stateE).1 = XCamReturn.noError ∧
    (estimate_overlap stateD).1 = XCamReturn.noError ∧
    estimate_coarse_crops (estimate_coarse_crops stateA).2
      = (XCamReturn.noError, (estimate_coarse_crops stateA).2) ∧
    mark_centers (mark_centers stateE).2 = (XCamReturn.noError, (mark_centers stateE).2) ∧
    estimate_overlap (estimate_overlap stateD).2
      = (XCamReturn.noError, (estimate_overlap stateD).2) :=
  ⟨by rw [mark_centers_stateE], by decide,
    (claim_C6_amended stateA stateE stateD).1,
    (claim_C6_amended stateA stateE stateD).2.1 (by rw [mark_centers_stateE]),
    (claim_C6_amended stateA stateE stateD).2.2 (by decide)⟩

/-! ## Claim C7: failure effects -/

/-- Counterexample to claim C7 as stated: on `stateC`, `mark_centers`
fails (camera 1's computed center is outside its slice) yet camera 0's
center-mark entry has already been modified. -/
theorem claim_C7_counterexample :
    (mark_centers stateC).1 = XCamReturn.errorParam ∧
    (mark_centers stateC).2.is_center_marked = false ∧
    (mark_centers stateC).2.center_marks 0 ≠ stateC.center_marks 0 := by
  rw [mark_centers_stateC]
  exact ⟨rfl, rfl, by decide⟩

/-- Claim C7 (amended): a failing stage never sets its completion
flag, and modifies nothing except (possibly) already-processed entries
of its own output array: a failing `mark_centers` leaves every field
except the center-mark array unchanged and the flag unset, and a
failing `estimate_overlap` leaves every field except the overlap array
unchanged and its flag as it was. -/
theorem claim_C7_amended (s t : StitcherState) :
    ((mark_centers s).1 ≠ XCamReturn.noError →
      (mark_centers s).2.is_center_marked = false ∧
      ∃ g, (mark_centers s).2 = { s with center_marks := g }) ∧
    ((estimate_overlap t).1 ≠ XCamReturn.noError →
      (estimate_overlap t).2.is_overlap_set = false ∧
      ∃ g, (estimate_overlap t).2 = { t with overlap_info := g }) := by
  constructor
  · intro h
    unfold mark_centers at h ⊢
    by_cases hm : s.is_center_marked = true
    · rw [if_pos hm] at h
      exact absurd rfl h
    · rw [if_neg hm] at h ⊢
      have hmf : s.is_center_marked = false := by simpa using hm
      by_cases hn : 0 < s.camera_num
      · rw [if_pos hn] at h ⊢
        by_cases hl : (mark_loop s.camera_num 0 s).1 = XCamReturn.noError
        · rw [if_pos hl] at h
          exact absurd rfl h
        · rw [if_neg hl]
          obtain ⟨g, hg⟩ := mark_loop_shape s.camera_num 0 s
          rw [hg]
          exact ⟨hmf, g, rfl⟩
      · rw [if_neg hn]
        exact ⟨hmf, s.center_marks, rfl⟩
  · intro h
    unfold estimate_overlap at h ⊢
    by_cases hm : t.is_overlap_set = true
    · rw [if_pos hm] at h
      exact absurd rfl h
    · rw [if_neg hm] at h ⊢
      have hmf : t.is_overlap_set = false := by simpa using hm
      by_cases hn : (t.is_crop_set && t.is_center_marked) = true
      · rw [if_pos hn] at h ⊢
        by_cases hl : (overlap_loop t.camera_num 0 t).1 = XCamReturn.noError
        · rw [if_pos hl] at h
          exact absurd rfl h
        · rw [if_neg hl]
          obtain ⟨g, hg⟩ := overlap_loop_shape t.camera_num 0 t
          rw [hg]
          exact ⟨hmf, g, rfl⟩
      · rw [if_neg hn]
        exact ⟨hmf, t.overlap_info, rfl⟩

/-- Witness for the amended C7 at the concrete failing runs
(`mark_centers` on `stateC`, `estimate_overlap` on `stateA`). -/
theorem claim_C7_witness :
    (mark_centers stateC).1 ≠ XCamReturn.noError ∧
    (estimate_overlap stateA).1 ≠ XCamReturn.noError ∧
    ((mark_centers stateC).2.is_center_marked = false ∧
      ∃ g, (mark_centers stateC).2 = { stateC with center_marks := g }) ∧
    ((estimate_overlap stateA).2.is_overlap_set = false ∧
      ∃ g, (estimate_overlap stateA).2 = { stateA with overlap_info := g }) :=
  ⟨by rw [mark_centers_stateC]; decide, by decide,
    (claim_C7_amended stateC stateA).1 (by rw [mark_centers_stateC]; decide),
    (claim_C7_amended stateC stateA).2 (by decide)⟩

/-! ## The overlap computation under validity ranges -/

theorem valid_left_pos_eq (s : StitcherState) (i : Nat)
    (h : ((s.center_marks i).slice_center_x : Int) < 2147483648) :
    valid_left_pos s i = ((s.center_marks i).slice_center_x : Int) :=
  i32_id (Int.natCast_nonneg _) h

theorem valid_left_width_eq (s : StitcherState) (i : Nat)
    (hc : ((s.center_marks i).slice_center_x : Int) < 2147483648)
    (h0 : 0 ≤ vlwP s i) (h1 : vlwP s i < 2147483648) :
    valid_left_width s i = vlwP s i := by
  unfold valid_left_width
  rw [valid_left_pos_eq s i hc]
  exact i32_u32_id h0 h1

theorem valid_right_width_eq (s : StitcherState) (i : Nat)
    (h0 : 0 ≤ vrwP s i) (h1 : vrwP s i < 2147483648) :
    valid_right_width s i = vrwP s i := by
  unfold valid_right_width
  exact i32_u32_id h0 h1

theorem valid_right_pos_eq (s : StitcherState) (i : Nat)
    (h0 : 0 ≤ vrwP s i) (h1 : vrwP s i < 2147483648)
    (hl : ((s.crop_info (next_cam s i)).left : Int) < 2147483648) :
    valid_right_pos s i = ((s.crop_info (next_cam s i)).left : Int) := by
  unfold valid_right_pos
  rw [valid_right_width_eq s i h0 h1,
    show ((s.center_marks (next_cam s i)).slice_center_x : Int) - vrwP s i
      = ((s.crop_info (next_cam s i)).left : Int) by unfold vrwP; ring]
  exact i32_u32_id (Int.natCast_nonneg _) hl

theorem merge_width_eq (s : StitcherState) (i : Nat)
    (h0 : 0 ≤ mwP s i) (h1 : mwP s i < 4294967296) :
    merge_width s i = mwP s i := by
  unfold merge_width
  exact u32_id h0 h1

theorem overlap_width_eq (s : StitcherState) (i : Nat) (hr : pair_in_range s i)
    (hpos : 0 ≤ owP s i) :
    overlap_width s i = owP s i := by
  obtain ⟨hc, hl, hv0, hv1, hw0, hw1, hm0, hm1⟩ := hr
  unfold overlap_width
  rw [valid_left_width_eq s i (by omega) hv0 (by omega),
    valid_right_width_eq s i hw0 (by omega),
    merge_width_eq s i hm0 (by omega)]
  exact u32_id hpos (by unfold owP at *; omega)

/-- Under the validity ranges, the pair computation fails exactly when
the plain overlap width is nonpositive. -/
theorem overlap_pair_none_iff (s : StitcherState) (i : Nat) (hr : pair_in_range s i) :
    (overlap_pair s i = none ↔ owP s i ≤ 0) := by
  obtain ⟨hc, hl, hv0, hv1, hw0, hw1, hm0, hm1⟩ := hr
  unfold overlap_pair
  rw [valid_left_width_eq s i (by omega) hv0 (by omega),
    valid_right_width_eq s i hw0 (by omega),
    merge_width_eq s i hm0 (by omega),
    i32_id hm0 (by omega)]
  constructor
  · intro h
    by_contra hlt
    rw [if_pos (by unfold owP at hlt; omega)] at h
    cases h
  · intro h
    rw [if_neg (by unfold owP at h; omega)]

/-- Under the validity ranges, a successful pair computation stores
the plain overlap width in all three rectangles, and the right
rectangle starts at the right camera's left crop margin. -/
theorem overlap_pair_some_widths (s : StitcherState) (i : Nat) (hr : pair_in_range s i)
    (hpos : 0 < owP s i) :
    ∃ o, overlap_pair s i = some o ∧
      o.left.width = owP s i ∧ o.right.width = owP s i ∧ o.out_area.width = owP s i ∧
      o.right.pos_x = ((s.crop_info (next_cam s i)).left : Int) := by
  obtain ⟨hc, hl, hv0, hv1, hw0, hw1, hm0, hm1⟩ := hr
  have how := overlap_width_eq s i ⟨hc, hl, hv0, hv1, hw0, hw1, hm0, hm1⟩ (le_of_lt hpos)
  have hwidth : i32 (overlap_width s i) = owP s i := by
    rw [how]
    exact i32_id (le_of_lt hpos) (by unfold owP at *; omega)
  unfold overlap_pair
  rw [valid_left_width_eq s i (by omega) hv0 (by omega),
    valid_right_width_eq s i hw0 (by omega),
    merge_width_eq s i hm0 (by omega),
    i32_id hm0 (by omega),
    if_pos (by unfold owP at hpos; omega)]
  exact ⟨_, rfl, hwidth, hwidth, hwidth, valid_right_pos_eq s i hw0 (by omega) (by omega)⟩

/-- Under the validity ranges plus `owP ≤ vlwP`, the positions of the
stored left and output overlap rectangles are also wrap-free. -/
theorem overlap_pair_some_full (s : StitcherState) (i : Nat) (hr : pair_in_range s i)
    (hpos : 0 < owP s i) (howl : owP s i ≤ vlwP s i)
    (hlc : ((s.center_marks i).out_center_x : Int) < 1073741824) :
    ∃ o, overlap_pair s i = some o ∧
      o.left.width = owP s i ∧ o.right.width = owP s i ∧ o.out_area.width = owP s i ∧
      o.right.pos_x = ((s.crop_info (next_cam s i)).left : Int) ∧
      o.left.pos_x = ((s.center_marks i).slice_center_x : Int) + vlwP s i - owP s i ∧
      o.out_area.pos_x = ((s.center_marks i).out_center_x : Int) + vlwP s i - owP s i := by
  obtain ⟨hc, hl, hv0, hv1, hw0, hw1, hm0, hm1⟩ := hr
  have how := overlap_width_eq s i ⟨hc, hl, hv0, hv1, hw0, hw1, hm0, hm1⟩ (le_of_lt hpos)
  have hwidth : i32 (overlap_width s i) = owP s i := by
    rw [how]
    exact i32_id (le_of_lt hpos) (by unfold owP at *; omega)
  have howb : owP s i < 2147483648 := by unfold owP at *; omega
  unfold overlap_pair
  rw [valid_left_width_eq s i (by omega) hv0 (by omega),
    valid_right_width_eq s i hw0 (by omega),
    merge_width_eq s i hm0 (by omega),
    i32_id hm0 (by omega),
    if_pos (by unfold owP at hpos; omega)]
  refine ⟨_, rfl, hwidth, hwidth, hwidth,
    valid_right_pos_eq s i hw0 (by omega) (by omega), ?_, ?_⟩
  · rw [valid_left_pos_eq s i (by omega), how]
    exact i32_u32_id (by omega) (by omega)
  · rw [how]
    exact i32_u32_id (by omega) (by omega)

/-- The pair computation never reads the overlap array. -/
theorem overlap_pair_congr (s : StitcherState) (f : Nat → ImageOverlapInfo) (i : Nat) :
    overlap_pair { s with overlap_info := f } i = overlap_pair s i := rfl

/-- The overlap loop on all-successful pairs: success code, each
processed slot holds its pair's computed overlap, and every other slot
is untouched. -/
theorem overlap_loop_success : ∀ (k idx : Nat) (s : StitcherState),
    (∀ t, idx ≤ t → t < idx + k → overlap_pair s t ≠ none) →
    (overlap_loop k idx s).1 = XCamReturn.noError ∧
    (∀ t, idx ≤ t → t < idx + k →
      ∀ o, overlap_pair s t = some o → (overlap_loop k idx s).2.overlap_info t = o) ∧
    (∀ t, t < idx ∨ idx + k ≤ t → (overlap_loop k idx s).2.overlap_info t = s.overlap_info t) := by
  intro k
  induction k with
  | zero =>
    intro idx s _
    exact ⟨rfl, fun t h1 h2 => by omega, fun t _ => rfl⟩
  | succ k ih =>
    intro idx s hall
    have hidx : overlap_pair s idx ≠ none := hall idx (le_refl idx) (by omega)
    obtain ⟨o0, ho0⟩ := Option.ne_none_iff_exists.mp hidx
    rw [overlap_loop_succ, ← ho0]
    have hcongr : ∀ t, overlap_pair
        { s with overlap_info := Function.update s.overlap_info idx o0 } t
        = overlap_pair s t := fun t => overlap_pair_congr s _ t
    obtain ⟨ih1, ih2, ih3⟩ :=
      ih (idx + 1) { s with overlap_info := Function.update s.overlap_info idx o0 }
        (fun t h1 h2 => by rw [hcongr]; exact hall t (by omega) (by omega))
    refine ⟨ih1, ?_, ?_⟩
    · intro t h1 h2 o ho
      rcases Nat.eq_or_lt_of_le h1 with h1 | h1
      · subst h1
        rw [ih3 idx (Or.inl (by omega))]
        simp only [Function.update_same]
        rw [← ho0] at ho
        exact Option.some_inj.mp ho
      · rw [ih2 t h1 (by omega) o (by rw [hcongr]; exact ho)]
    · intro t ht
      rw [ih3 t (by omega)]
      exact Function.update_noteq (by omega) _ _

/-- The overlap loop fails with the unknown error as soon as one
processed pair fails. -/
theorem overlap_loop_fail : ∀ (k idx : Nat) (s : StitcherState),
    (∃ t, idx ≤ t ∧ t < idx + k ∧ overlap_pair s t = none) →
    (overlap_loop k idx s).1 = XCamReturn.errorUnknown := by
  intro k
  induction k with
  | zero =>
    intro idx s h
    obtain ⟨t, h1, h2, _⟩ := h
    omega
  | succ k ih =>
    intro idx s h
    obtain ⟨t, h1, h2, ht⟩ := h
    rw [overlap_loop_succ]
    cases ho : overlap_pair s idx with
    | none => rfl
    | some o0 =>
      have hne : t ≠ idx := fun he => by rw [he, ho] at ht; cases ht
      exact ih (idx + 1) _
        ⟨t, by omega, by omega,
          by rw [overlap_pair_congr]; exact ht⟩


/-- A full successful `estimate_overlap` run: every computed pair
overlap is stored at its slot, slots beyond the camera count are
untouched, everything else except the completion flag is unchanged. -/
theorem estimate_overlap_success_state (s : StitcherState)
    (hov : s.is_overlap_set = false) (hc : s.is_crop_set = true)
    (hm : s.is_center_marked = true)
    (hall : ∀ i, i < s.camera_num → overlap_pair s i ≠ none) :
    (estimate_overlap s).1 = XCamReturn.noError ∧
    ∃ g, (estimate_overlap s).2 = { s with overlap_info := g, is_overlap_set := true } ∧
      (∀ i, i < s.camera_num → ∀ o, overlap_pair s i = some o → g i = o) ∧
      (∀ i, s.camera_num ≤ i → g i = s.overlap_info i) := by
  obtain ⟨l1, l2, l3⟩ :=
    overlap_loop_success s.camera_num 0 s (fun t _ h2 => hall t (by omega))
  obtain ⟨g, hg⟩ := overlap_loop_shape s.camera_num 0 s
  have hov' : ¬(s.is_overlap_set = true) := by simp [hov]
  have hcm : (s.is_crop_set && s.is_center_marked) = true := by rw [hc, hm]; rfl
  unfold estimate_overlap
  rw [if_neg hov', if_pos hcm, if_pos l1]
  refine ⟨rfl, g, ?_, ?_, ?_⟩
  · rw [hg]
  · intro i hi o ho
    have hw := l2 i (by omega) (by omega) o ho
    rw [hg] at hw
    exact hw
  · intro i hi
    have hw := l3 i (Or.inr (by omega))
    rw [hg] at hw
    exact hw

/-- A failing `estimate_overlap` run reports the unknown error. -/
theorem estimate_overlap_fail_code (s : StitcherState)
    (hov : s.is_overlap_set = false) (hc : s.is_crop_set = true)
    (hm : s.is_center_marked = true)
    (hex : ∃ i, i < s.camera_num ∧ overlap_pair s i = none) :
    (estimate_overlap s).1 = XCamReturn.errorUnknown := by
  obtain ⟨i, hi, hnone⟩ := hex
  have hl := overlap_loop_fail s.camera_num 0 s ⟨i, by omega, by omega, hnone⟩
  unfold estimate_overlap
  rw [if_neg (by simp [hov]), if_pos (by rw [hc, hm]; rfl), if_neg (by simp [hl])]
  exact hl

/-! ## Claim C5: overlap widths and the failure condition -/

/-- Claim C5: for ring-adjacent pairs under validity ranges,
`estimate_overlap` fails with the unknown error exactly when some
pair's left valid width plus right valid width is not strictly greater
than its merge width; when it succeeds, every pair's overlap width is
strictly positive and the stored left, right and output overlap
rectangles all have width equal to that overlap width. -/
theorem claim_C5 (s : StitcherState)
    (hov : s.is_overlap_set = false) (hc : s.is_crop_set = true)
    (hm : s.is_center_marked = true)
    (hr : ∀ i, i < s.camera_num → pair_in_range s i) :
    ((estimate_overlap s).1 = XCamReturn.noError ↔
      ∀ i, i < s.camera_num → mwP s i < vlwP s i + vrwP s i) ∧
    ((estimate_overlap s).1 = XCamReturn.errorUnknown ↔
      ∃ i, i < s.camera_num ∧ vlwP s i + vrwP s i ≤ mwP s i) ∧
    ((estimate_overlap s).1 = XCamReturn.noError →
      ∀ i, i < s.camera_num →
        0 < owP s i ∧
        ((estimate_overlap s).2.overlap_info i).left.width = owP s i ∧
        ((estimate_overlap s).2.overlap_info i).right.width = owP s i ∧
        ((estimate_overlap s).2.overlap_info i).out_area.width = owP s i) := by
  have hnone : ∀ i, i < s.camera_num → (overlap_pair s i = none ↔ owP s i ≤ 0) :=
    fun i hi => overlap_pair_none_iff s i (hr i hi)
  by_cases hall : ∀ i, i < s.camera_num → mwP s i < vlwP s i + vrwP s i
  · have hnn : ∀ i, i < s.camera_num → overlap_pair s i ≠ none := by
      intro i hi hcontra
      have h1 := (hnone i hi).mp hcontra
      have h2 := hall i hi
      unfold owP at h1
      omega
    obtain ⟨hcode, g, hstate, hwrites, _⟩ :=
      estimate_overlap_success_state s hov hc hm hnn
    refine ⟨⟨fun _ => hall, fun _ => hcode⟩, ?_, ?_⟩
    · rw [hcode]
      constructor
      · intro hbad
        cases hbad
      · rintro ⟨i, hi, hbad⟩
        have := hall i hi
        omega
    · intro _ i hi
      have hpos : 0 < owP s i := by
        have := hall i hi
        unfold owP
        omega
      obtain ⟨o, ho, hw1, hw2, hw3, _⟩ := overlap_pair_some_widths s i (hr i hi) hpos
      have hgi := hwrites i hi o ho
      have hproj : (estimate_overlap s).2.overlap_info i = o := by
        rw [hstate]
        exact hgi
      rw [hproj]
      exact ⟨hpos, hw1, hw2, hw3⟩
  · push_neg at hall
    obtain ⟨i, hi, hbad⟩ := hall
    have hfail : (estimate_overlap s).1 = XCamReturn.errorUnknown :=
      estimate_overlap_fail_code s hov hc hm
        ⟨i, hi, (hnone i hi).mpr (by unfold owP; omega)⟩
    refine ⟨?_, ?_, ?_⟩
    · rw [hfail]
      constructor
      · intro hbad2
        cases hbad2
      · intro hallgood
        have := hallgood i hi
        omega
    · rw [hfail]
      exact ⟨fun _ => ⟨i, hi, hbad⟩, fun _ => rfl⟩
    · intro hno
      rw [hfail] at hno
      cases hno

/-- Witness for C5 at the valid two-camera configuration `stateD`. -/
theorem claim_C5_witness :
    (stateD.is_overlap_set = false ∧ stateD.is_crop_set = true ∧
      stateD.is_center_marked = true ∧
      (∀ i, i < stateD.camera_num → pair_in_range stateD i)) ∧
    ((estimate_overlap stateD).1 = XCamReturn.noError ↔
      ∀ i, i < stateD.camera_num → mwP stateD i < vlwP stateD i + vrwP stateD i) ∧
    ((estimate_overlap stateD).1 = XCamReturn.noError →
      ∀ i, i < stateD.camera_num →
        0 < owP stateD i ∧
        ((estimate_overlap stateD).2.overlap_info i).left.width = owP stateD i ∧
        ((estimate_overlap stateD).2.overlap_info i).right.width = owP stateD i ∧
        ((estimate_overlap stateD).2.overlap_info i).out_area.width = owP stateD i) :=
  ⟨⟨rfl, rfl, rfl, by decide⟩,
    (claim_C5 stateD rfl rfl rfl (by decide)).1,
    (claim_C5 stateD rfl rfl rfl (by decide)).2.2⟩

/-! ## Claim C2: the copy-area count -/

/-- Each loop index of `update_copy_areas` pushes at least two
candidate areas (each of the two candidates yields one or two
pieces). -/
theorem camera_candidates_length (s : StitcherState) (i : Nat) :
    2 ≤ (camera_candidates s i).length := by
  unfold camera_candidates
  cases hsl : split_area_by_out (left_candidate s i) s.output_width with
  | none =>
    cases hsr : split_area_by_out (right_candidate s i) s.output_width with
    | none => simp [hsl, hsr]
    | some p =>
      rcases p with ⟨a, b⟩
      simp [hsl, hsr]
  | some p =>
    rcases p with ⟨a, b⟩
    cases hsr : split_area_by_out (right_candidate s i) s.output_width with
    | none => simp [hsl, hsr]
    | some q =>
      rcases q with ⟨c, d⟩
      simp [hsl, hsr]

/-- A flat map whose pieces all have length at least two has length at
least twice the index count. -/
theorem flatMap_length_le (f : Nat → List CopyArea) :
    ∀ l : List Nat, (∀ i ∈ l, 2 ≤ (f i).length) →
      2 * l.length ≤ (l.flatMap f).length := by
  intro l
  induction l with
  | nil => simp
  | cons x xs ih =>
    intro h
    simp only [List.flatMap_cons, List.length_append, List.length_cons]
    have h1 := h x (by simp)
    have h2 := ih (fun i hi => h i (by simp [hi]))
    omega

/-- The candidate list of `update_copy_areas` holds at least two areas
per camera. -/
theorem tmp_areas_length (s : StitcherState) :
    2 * s.camera_num ≤ (tmp_areas s).length := by
  unfold tmp_areas
  have h := flatMap_length_le (camera_candidates s) (List.range s.camera_num)
    (fun i _ => camera_candidates_length s i)
  simpa using h

/-- The greedy merge pass at most halves the number of areas. -/
theorem merge_areas_pass_length :
    ∀ l : List CopyArea, l.length ≤ 2 * (merge_areas_pass l).length := by
  intro l
  induction l using merge_areas_pass.induct with
  | case1 => simp [merge_areas_pass]
  | case2 a => simp [merge_areas_pass]
  | case3 a b rest m hm ih =>
    simp only [merge_areas_pass, hm, List.length_cons]
    omega
  | case4 a b rest hm ih =>
    simp only [merge_areas_pass, hm, List.length_cons] at ih ⊢
    omega

/-- Structure of the merge phase on a list of more than two areas:
the head, the nonempty tail, and the last element, with the two
possible outcomes of the wraparound merge. -/
theorem merge_all_spec (l : List CopyArea) (h : 2 < l.length) :
    ∃ hd tl last, l = hd :: tl ∧ tl ≠ [] ∧ l.getLast? = some last ∧
      tl.dropLast ++ [last] = tl ∧
      ((∃ m, merge_neighbor_area last hd = some m ∧
          merge_all l = m :: merge_areas_pass tl.dropLast) ∨
        (merge_neighbor_area last hd = none ∧ merge_all l = merge_areas_pass l)) := by
  match l, h with
  | hd :: tl, h =>
    have htl : tl ≠ [] := by
      intro he
      rw [he] at h
      simp at h
    have hne : hd :: tl ≠ [] := by simp
    have hme : merge_all (hd :: tl)
        = match merge_neighbor_area ((hd :: tl).getLast hne) hd with
          | some m => m :: merge_areas_pass ((hd :: tl).drop 1).dropLast
          | none => merge_areas_pass (hd :: tl) := by
      unfold merge_all
      rw [if_pos h, List.getLast?_eq_getLast _ hne]
      rfl
    refine ⟨hd, tl, (hd :: tl).getLast hne, rfl, htl, List.getLast?_eq_getLast _ hne, ?_, ?_⟩
    · rw [List.getLast_cons htl]
      exact List.dropLast_append_getLast htl
    · cases hm : merge_neighbor_area ((hd :: tl).getLast hne) hd with
      | some m =>
        rw [hm] at hme
        exact Or.inl ⟨m, rfl, hme⟩
      | none =>
        rw [hm] at hme
        exact Or.inr ⟨rfl, hme⟩

/-- The merge phase at most halves the number of areas. -/
theorem merge_all_length (l : List CopyArea) : l.length ≤ 2 * (merge_all l).length := by
  by_cases h : 2 < l.length
  · obtain ⟨hd, tl, last, rfl, htl, hlast, hsplit, hcase⟩ := merge_all_spec _ h
    rcases hcase with ⟨m, hm, he⟩ | ⟨hm, he⟩
    · rw [he]
      have hp := merge_areas_pass_length tl.dropLast
      have hlen : tl.dropLast.length = tl.length - 1 := List.length_dropLast tl
      have hpos : 0 < tl.length := List.length_pos.mpr htl
      simp only [List.length_cons]
      omega
    · rw [he]
      exact merge_areas_pass_length _
  · have he : merge_all l = merge_areas_pass l := by
      unfold merge_all
      rw [if_neg h]
    rw [he]
    exact merge_areas_pass_length l

/-- Claim C2: whenever `update_copy_areas` succeeds (which requires at
least two cameras), the final copy-area list holds at least
`camera_num` entries. -/
theorem claim_C2 (s : StitcherState)
    (h : (update_copy_areas s).1 = XCamReturn.noError) :
    2 ≤ s.camera_num ∧ s.camera_num ≤ (update_copy_areas s).2.copy_areas.length := by
  unfold update_copy_areas at h ⊢
  by_cases hc : 1 < s.camera_num ∧ s.is_crop_set ∧ s.is_overlap_set
  · rw [if_pos hc] at h ⊢
    refine ⟨by omega, ?_⟩
    simp only [List.length_append]
    have h1 := tmp_areas_length s
    have h2 := merge_all_length (tmp_areas s)
    omega
  · rw [if_neg hc] at h
    cases h

/-- Witness for C2 at the concrete state `stateB`. -/
theorem claim_C2_witness :
    (update_copy_areas stateB).1 = XCamReturn.noError ∧
    2 ≤ stateB.camera_num ∧
    stateB.camera_num ≤ (update_copy_areas stateB).2.copy_areas.length :=
  ⟨by decide, (claim_C2 stateB (by decide)).1, (claim_C2 stateB (by decide)).2⟩

/-! ## Coverage behaviour of the merge phase -/

theorem covers_list_cons (a : CopyArea) (l : List CopyArea) (x : Int) :
    covers_list (a :: l) x ↔ area_covers a x ∨ covers_list l x := by
  unfold covers_list
  simp [List.mem_cons, or_and_right, exists_or]

theorem covers_list_append (l1 l2 : List CopyArea) (x : Int) :
    covers_list (l1 ++ l2) x ↔ covers_list l1 x ∨ covers_list l2 x := by
  unfold covers_list
  simp [List.mem_append, or_and_right, exists_or]

theorem covers_list_nil (x : Int) : ¬covers_list [] x := by
  unfold covers_list
  simp

theorem disjointX_symm {a b : CopyArea} (h : disjointX a b) : disjointX b a :=
  fun x hx => h x ⟨hx.2, hx.1⟩

theorem merge_some_out (a b m : CopyArea) (h : merge_neighbor_area a b = some m) :
    m.out_area.pos_x = a.out_area.pos_x ∧
    m.out_area.width = a.out_area.width + b.out_area.width ∧
    b.out_area.pos_x = a.out_area.pos_x + a.out_area.width := by
  unfold merge_neighbor_area at h
  split at h
  · next hc =>
    cases h
    exact ⟨rfl, rfl, hc.2.2.symm⟩
  · cases h

/-- A merged area covers exactly the columns of its two (contiguous)
inputs. -/
theorem merge_covers (a b m : CopyArea) (h : merge_neighbor_area a b = some m)
    (ha : 0 ≤ a.out_area.width) (hb : 0 ≤ b.out_area.width) (x : Int) :
    area_covers m x ↔ area_covers a x ∨ area_covers b x := by
  obtain ⟨h1, h2, h3⟩ := merge_some_out a b m h
  unfold area_covers rect_covers
  rw [h1, h2, h3]
  omega

theorem merge_nonneg (a b m : CopyArea) (h : merge_neighbor_area a b = some m)
    (ha : 0 ≤ a.out_area.width) (hb : 0 ≤ b.out_area.width) :
    0 ≤ m.out_area.width := by
  obtain ⟨_, h2, _⟩ := merge_some_out a b m h
  omega

/-- The greedy merge pass covers exactly the columns its input
covers. -/
theorem merge_areas_pass_covers :
    ∀ l : List CopyArea, (∀ a ∈ l, 0 ≤ a.out_area.width) →
      ∀ x : Int, (covers_list (merge_areas_pass l) x ↔ covers_list l x) := by
  intro l
  induction l using merge_areas_pass.induct with
  | case1 =>
    intro _ x
    rfl
  | case2 a =>
    intro _ x
    rfl
  | case3 a b rest m hm ih =>
    intro hw x
    rw [show merge_areas_pass (a :: b :: rest) = m :: merge_areas_pass rest by
      simp [merge_areas_pass, hm]]
    rw [covers_list_cons, covers_list_cons, covers_list_cons,
      ih (fun c hc => hw c (by simp [hc])) x]
    have hmc := merge_covers a b m hm (hw a (by simp)) (hw b (by simp)) x
    tauto
  | case4 a b rest hm ih =>
    intro hw x
    rw [show merge_areas_pass (a :: b :: rest) = a :: merge_areas_pass (b :: rest) by
      simp [merge_areas_pass, hm]]
    rw [covers_list_cons, covers_list_cons,
      ih (fun c hc => hw c (by simp [hc])) x]

/-- The greedy merge pass preserves pairwise disjointness of the
destination x-ranges. -/
theorem merge_areas_pass_pairwise :
    ∀ l : List CopyArea, (∀ a ∈ l, 0 ≤ a.out_area.width) →
      l.Pairwise disjointX → (merge_areas_pass l).Pairwise disjointX := by
  intro l
  induction l using merge_areas_pass.induct with
  | case1 =>
    intro _ _
    exact List.Pairwise.nil
  | case2 a =>
    intro _ h
    exact h
  | case3 a b rest m hm ih =>
    intro hw hp
    rw [show merge_areas_pass (a :: b :: rest) = m :: merge_areas_pass rest by
      simp [merge_areas_pass, hm]]
    have hpa : ∀ c ∈ b :: rest, disjointX a c :=
      fun c hc => List.rel_of_pairwise_cons hp hc
    have hpb : ∀ c ∈ rest, disjointX b c :=
      fun c hc => List.rel_of_pairwise_cons (List.pairwise_cons.mp hp).2 hc
    have hprest : rest.Pairwise disjointX :=
      (List.pairwise_cons.mp (List.pairwise_cons.mp hp).2).2
    have hwrest : ∀ c ∈ rest, 0 ≤ c.out_area.width := fun c hc => hw c (by simp [hc])
    refine List.Pairwise.cons ?_ (ih hwrest hprest)
    intro c hc x hx
    obtain ⟨hmx, hcx⟩ := hx
    have hcx2 : covers_list rest x :=
      (merge_areas_pass_covers rest hwrest x).mp ⟨c, hc, hcx⟩
    obtain ⟨c2, hc2, hc2x⟩ := hcx2
    rcases (merge_covers a b m hm (hw a (by simp)) (hw b (by simp)) x).mp hmx with hax | hbx
    · exact hpa c2 (by simp [hc2]) x ⟨hax, hc2x⟩
    · exact hpb c2 hc2 x ⟨hbx, hc2x⟩
  | case4 a b rest hm ih =>
    intro hw hp
    rw [show merge_areas_pass (a :: b :: rest) = a :: merge_areas_pass (b :: rest) by
      simp [merge_areas_pass, hm]]
    have hpa : ∀ c ∈ b :: rest, disjointX a c :=
      fun c hc => List.rel_of_pairwise_cons hp hc
    have hwtail : ∀ c ∈ b :: rest, 0 ≤ c.out_area.width := fun c hc => hw c (by simp [hc])
    refine List.Pairwise.cons ?_ (ih hwtail (List.pairwise_cons.mp hp).2)
    intro c hc x hx
    obtain ⟨hax, hcx⟩ := hx
    have hcx2 : covers_list (b :: rest) x :=
      (merge_areas_pass_covers (b :: rest) hwtail x).mp ⟨c, hc, hcx⟩
    obtain ⟨c2, hc2, hc2x⟩ := hcx2
    exact hpa c2 hc2 x ⟨hax, hc2x⟩

/-- The whole merge phase covers exactly the columns its input
covers. -/
theorem merge_all_covers (l : List CopyArea)
    (hw : ∀ a ∈ l, 0 ≤ a.out_area.width) (x : Int) :
    covers_list (merge_all l) x ↔ covers_list l x := by
  by_cases h : 2 < l.length
  · obtain ⟨hd, tl, last, rfl, htl, hlast, hsplit, hcase⟩ := merge_all_spec _ h
    have hwdrop : ∀ a ∈ tl.dropLast, 0 ≤ a.out_area.width :=
      fun a ha => hw a (by simp [(List.dropLast_sublist tl).subset ha])
    have htlcov : covers_list tl x ↔ covers_list tl.dropLast x ∨ area_covers last x := by
      conv =>
        lhs
        rw [← hsplit]
      rw [covers_list_append, covers_list_cons]
      have : ¬covers_list [] x := covers_list_nil x
      tauto
    rcases hcase with ⟨m, hm, he⟩ | ⟨hm, he⟩
    · rw [he, covers_list_cons, covers_list_cons, htlcov]
      have hlastw : 0 ≤ last.out_area.width := by
        refine hw last ?_
        rw [← hsplit]
        simp
      have hmc := merge_covers last hd m hm hlastw (hw hd (by simp)) x
      rw [merge_areas_pass_covers tl.dropLast hwdrop x]
      tauto
    · rw [he]
      exact merge_areas_pass_covers _ hw x
  · have he : merge_all l = merge_areas_pass l := by
      unfold merge_all
      rw [if_neg h]
    rw [he]
    exact merge_areas_pass_covers _ hw x

/-- The whole merge phase preserves pairwise disjointness of the
destination x-ranges. -/
theorem merge_all_pairwise (l : List CopyArea)
    (hw : ∀ a ∈ l, 0 ≤ a.out_area.width) (hp : l.Pairwise disjointX) :
    (merge_all l).Pairwise disjointX := by
  by_cases h : 2 < l.length
  · obtain ⟨hd, tl, last, rfl, htl, hlast, hsplit, hcase⟩ := merge_all_spec _ h
    have hwdrop : ∀ a ∈ tl.dropLast, 0 ≤ a.out_area.width :=
      fun a ha => hw a (by simp [(List.dropLast_sublist tl).subset ha])
    have hptl : tl.Pairwise disjointX := (List.pairwise_cons.mp hp).2
    have hpdrop : tl.dropLast.Pairwise disjointX :=
      hptl.sublist (List.dropLast_sublist tl)
    rcases hcase with ⟨m, hm, he⟩ | ⟨hm, he⟩
    · rw [he]
      have hlastw : 0 ≤ last.out_area.width := by
        refine hw last ?_
        rw [← hsplit]
        simp
      refine List.Pairwise.cons ?_ (merge_areas_pass_pairwise _ hwdrop hpdrop)
      intro c hc x hx
      obtain ⟨hmx, hcx⟩ := hx
      obtain ⟨c2, hc2, hc2x⟩ :=
        (merge_areas_pass_covers tl.dropLast hwdrop x).mp ⟨c, hc, hcx⟩
      have hc2tl : c2 ∈ tl := (List.dropLast_sublist tl).subset hc2
      rcases (merge_covers last hd m hm hlastw (hw hd (by simp)) x).mp hmx with hlx | hdx
      · have hplast : disjointX c2 last := by
          have happ : (tl.dropLast ++ [last]).Pairwise disjointX := by
            rw [hsplit]
            exact hptl
          exact (List.pairwise_append.mp happ).2.2 c2 hc2 last (by simp)
        exact disjointX_symm hplast x ⟨hlx, hc2x⟩
      · exact List.rel_of_pairwise_cons hp hc2tl x ⟨hdx, hc2x⟩
    · rw [he]
      exact merge_areas_pass_pairwise _ hw hp
  · have he : merge_all l = merge_areas_pass l := by
      unfold merge_all
      rw [if_neg h]
    rw [he]
    exact merge_areas_pass_pairwise _ hw hp

/-! ## Flat-map coverage and disjointness -/

theorem covers_flatMap (f : Nat → List CopyArea) (l : List Nat) (x : Int) :
    covers_list (l.flatMap f) x ↔ ∃ i ∈ l, covers_list (f i) x := by
  unfold covers_list
  constructor
  · rintro ⟨a, ha, hax⟩
    obtain ⟨i, hi, hai⟩ := List.mem_flatMap.mp ha
    exact ⟨i, hi, a, hai, hax⟩
  · rintro ⟨i, hi, a, hai, hax⟩
    exact ⟨a, List.mem_flatMap.mpr ⟨i, hi, hai⟩, hax⟩

theorem pairwise_flatMap (f : Nat → List CopyArea) :
    ∀ l : List Nat,
      l.Pairwise (fun i i2 => ∀ a ∈ f i, ∀ b ∈ f i2, disjointX a b) →
      (∀ i ∈ l, (f i).Pairwise disjointX) →
      (l.flatMap f).Pairwise disjointX := by
  intro l
  induction l with
  | nil =>
    intro _ _
    exact List.Pairwise.nil
  | cons i l ih =>
    intro hcross hin
    rw [List.flatMap_cons, List.pairwise_append]
    refine ⟨hin i (by simp),
      ih (List.pairwise_cons.mp hcross).2 (fun i2 hi2 => hin i2 (by simp [hi2])), ?_⟩
    intro a ha b hb
    obtain ⟨i2, hi2, hbi2⟩ := List.mem_flatMap.mp hb
    exact List.rel_of_pairwise_cons hcross hi2 a ha b hbi2

/-! ## Strictly increasing integer sequences -/

theorem seq_mono_add (a : Nat → Int) (N : Nat)
    (hm : ∀ t, t < N → a t < a (t + 1)) :
    ∀ d u, u + d ≤ N → a u ≤ a (u + d) := by
  intro d
  induction d with
  | zero =>
    intro u _
    simp
  | succ n ih =>
    intro u h
    have h1 := ih u (by omega)
    have h2 := hm (u + n) (by omega)
    have h3 : u + (n + 1) = u + n + 1 := by omega
    rw [h3]
    omega

theorem seq_mono (a : Nat → Int) (N : Nat)
    (hm : ∀ t, t < N → a t < a (t + 1)) :
    ∀ u v, u ≤ v → v ≤ N → a u ≤ a v := by
  intro u v huv hvN
  have h := seq_mono_add a N hm (v - u) u (by omega)
  rw [show u + (v - u) = v by omega] at h
  exact h

/-- Searching a strictly increasing sequence for the segment holding
`x`. -/
theorem exists_segment (a : Nat → Int) (x : Int) :
    ∀ N : Nat, (∀ t, t < N → a t < a (t + 1)) → a 0 ≤ x → x < a N →
      ∃ t, t < N ∧ a t ≤ x ∧ x < a (t + 1) := by
  intro N
  induction N with
  | zero =>
    intro _ h1 h2
    omega
  | succ n ih =>
    intro hmono h1 h2
    by_cases hx : a n ≤ x
    · exact ⟨n, by omega, hx, h2⟩
    · obtain ⟨t, ht, h3, h4⟩ := ih (fun t ht => hmono t (by omega)) h1 (by omega)
      exact ⟨t, by omega, h3, h4⟩

/-! ## The ring of output segments -/

/-- On a ring-valid set of center marks (a unique wrap camera `j` with
output center 0, marks strictly increasing in ring order from `j`, all
below the output width), each pair's output segment
`[out_center, effective-right-center)` is a nonempty subinterval of
`[0, output_width)`, the segments tile `[0, output_width)`, and
segments of distinct pairs are disjoint. -/
theorem ring_segments (s : StitcherState) (j : Nat)
    (hN : 0 < s.camera_num)
    (hj : j < s.camera_num)
    (hj0 : (s.center_marks j).out_center_x = 0)
    (hmono : ∀ t, t + 1 < s.camera_num →
      (s.center_marks ((j + t) % s.camera_num)).out_center_x
        < (s.center_marks ((j + t + 1) % s.camera_num)).out_center_x)
    (hlt : ∀ i, i < s.camera_num →
      (s.center_marks i).out_center_x < s.output_width) :
    (∀ i, i < s.camera_num →
      ((s.center_marks i).out_center_x : Int) < (out_right_center s i : Int) ∧
      0 ≤ ((s.center_marks i).out_center_x : Int) ∧
      (out_right_center s i : Int) ≤ (s.output_width : Int)) ∧
    (∀ x : Int, 0 ≤ x → x < (s.output_width : Int) →
      ∃ i, i < s.camera_num ∧ ((s.center_marks i).out_center_x : Int) ≤ x ∧
        x < (out_right_center s i : Int)) ∧
    (∀ i i2, i < s.camera_num → i2 < s.camera_num → i ≠ i2 →
      (out_right_center s i : Int) ≤ ((s.center_marks i2).out_center_x : Int) ∨
      (out_right_center s i2 : Int) ≤ ((s.center_marks i).out_center_x : Int)) := by
  set N := s.camera_num with hNdef
  set A : Nat → Int := fun t =>
    if t < N then ((s.center_marks ((j + t) % N)).out_center_x : Int)
    else (s.output_width : Int) with hA
  have hback : ∀ i, i < N → (j + ((i + N - j) % N)) % N = i := by
    intro i hi
    have h1 : (j + (i + N - j) % N) % N = (j + (i + N - j)) % N := Nat.add_mod_mod j _ N
    have h2 : j + (i + N - j) = i + N := by omega
    rw [h1, h2, Nat.add_mod_right, Nat.mod_eq_of_lt hi]
  have hA0 : A 0 = 0 := by
    rw [hA]
    simp only [hN, if_pos, Nat.add_zero]
    rw [Nat.mod_eq_of_lt hj, hj0]
    simp
  have hAN : A N = (s.output_width : Int) := by
    rw [hA]
    simp
  have hAmono : ∀ t, t < N → A t < A (t + 1) := by
    intro t ht
    by_cases h1 : t + 1 < N
    · rw [hA]
      simp only [if_pos ht, if_pos h1]
      exact_mod_cast hmono t h1
    · have ht1 : t + 1 = N := by omega
      rw [hA]
      simp only [if_pos ht, if_neg (by omega : ¬t + 1 < N)]
      exact_mod_cast hlt ((j + t) % N) (Nat.mod_lt _ hN)
  have hAmono2 : ∀ u v, u ≤ v → v ≤ N → A u ≤ A v := seq_mono A N hAmono
  have hAnonneg : ∀ t, t ≤ N → 0 ≤ A t := by
    intro t ht
    rw [← hA0]
    exact hAmono2 0 t (by omega) ht
  have hAle : ∀ t, t ≤ N → A t ≤ (s.output_width : Int) := by
    intro t ht
    rw [← hAN]
    exact hAmono2 t N ht (le_refl N)
  have hnext : ∀ t, next_cam s ((j + t) % N) = (j + t + 1) % N := by
    intro t
    unfold next_cam
    rw [← hNdef, Nat.mod_add_mod]
  have horcx : ∀ t, t < N → (out_right_center s ((j + t) % N) : Int) = A (t + 1) := by
    intro t ht
    unfold out_right_center
    rw [hnext t]
    by_cases h1 : t + 1 < N
    · have hne : (s.center_marks ((j + t + 1) % N)).out_center_x ≠ 0 := by
        intro h0
        have ha1 : A (t + 1) = 0 := by
          rw [hA]
          simp only [if_pos h1]
          exact_mod_cast h0
        have hlt1 : A t < A (t + 1) := hAmono t ht
        have hge : 0 ≤ A t := hAnonneg t (by omega)
        omega
      rw [if_neg hne, hA]
      simp only [if_pos h1]
      rfl
    · have ht1 : t + 1 = N := by omega
      have hj1 : (j + t + 1) % N = j := by
        rw [show j + t + 1 = j + N by omega, Nat.add_mod_right, Nat.mod_eq_of_lt hj]
      rw [hj1, if_pos hj0, hA]
      simp only [if_neg (by omega : ¬t + 1 < N)]
  have hAat : ∀ i, i < N → A ((i + N - j) % N) = ((s.center_marks i).out_center_x : Int) := by
    intro i hi
    have hTlt : (i + N - j) % N < N := Nat.mod_lt _ hN
    rw [hA]
    simp only [if_pos hTlt]
    rw [hback i hi]
  have horcxat : ∀ i, i < N →
      (out_right_center s i : Int) = A ((i + N - j) % N + 1) := by
    intro i hi
    have hTlt : (i + N - j) % N < N := Nat.mod_lt _ hN
    have h1 := horcx ((i + N - j) % N) hTlt
    rw [hback i hi] at h1
    exact h1
  refine ⟨?_, ?_, ?_⟩
  · intro i hi
    have hTlt : (i + N - j) % N < N := Nat.mod_lt _ hN
    rw [← hAat i hi, horcxat i hi]
    exact ⟨hAmono _ hTlt, hAnonneg _ (by omega), hAle _ (by omega)⟩
  · intro x hx0 hxW
    obtain ⟨t, ht, h1, h2⟩ := exists_segment A x N hAmono (by omega) (by omega)
    refine ⟨(j + t) % N, Nat.mod_lt _ hN, ?_, ?_⟩
    · have hAt : A t = ((s.center_marks ((j + t) % N)).out_center_x : Int) := by
        rw [hA]
        simp only [if_pos ht]
      rw [← hAt]
      exact h1
    · rw [horcx t ht]
      exact h2
  · intro i i2 hi hi2 hne
    have hTlt : (i + N - j) % N < N := Nat.mod_lt _ hN
    have hTlt2 : (i2 + N - j) % N < N := Nat.mod_lt _ hN
    have hTne : (i + N - j) % N ≠ (i2 + N - j) % N := by
      intro he
      have h1 := hback i hi
      have h2 := hback i2 hi2
      rw [he] at h1
      rw [h1] at h2
      exact hne h2
    rcases Nat.lt_or_ge ((i + N - j) % N) ((i2 + N - j) % N) with hltT | hgeT
    · left
      rw [horcxat i hi, ← hAat i2 hi2]
      exact hAmono2 _ _ (by omega) (by omega)
    · right
      have hltT2 : (i2 + N - j) % N < (i + N - j) % N := by omega
      rw [horcxat i2 hi2, ← hAat i hi]
      exact hAmono2 _ _ (by omega) (by omega)

/-! ## Candidate rectangles: projection equations -/

theorem left_candidate_out (s1 : StitcherState) (i : Nat) :
    (left_candidate s1 i).out_area.pos_x = i32 ((s1.center_marks i).out_center_x : Int) ∧
    (left_candidate s1 i).out_area.width
      = (s1.overlap_info i).left.pos_x - i32 ((s1.center_marks i).slice_center_x : Int) :=
  ⟨rfl, rfl⟩

theorem right_candidate_out (s1 : StitcherState) (i : Nat) :
    (right_candidate s1 i).out_area.width
      = i32 ((s1.center_marks (next_cam s1 i)).slice_center_x : Int)
        - ((s1.overlap_info i).right.pos_x + (s1.overlap_info i).right.width) ∧
    (right_candidate s1 i).out_area.pos_x
      = i32 (u32 ((out_right_center s1 i : Int)
          - (i32 ((s1.center_marks (next_cam s1 i)).slice_center_x : Int)
            - ((s1.overlap_info i).right.pos_x + (s1.overlap_info i).right.width)))) :=
  ⟨rfl, rfl⟩

theorem split_none_of (area : CopyArea) (w : Nat)
    (h : ¬(area.out_area.pos_x + area.out_area.width > i32 (w : Int))) :
    split_area_by_out area w = none := by
  unfold split_area_by_out
  rw [if_neg h]

theorem camera_candidates_eq (s1 : StitcherState) (i : Nat)
    (hl : split_area_by_out (left_candidate s1 i) s1.output_width = none)
    (hr : split_area_by_out (right_candidate s1 i) s1.output_width = none) :
    camera_candidates s1 i = [left_candidate s1 i, right_candidate s1 i] := by
  simp only [camera_candidates]
  rw [hl, hr]
  rfl

/-- Pure arithmetic of one camera's band: the left candidate, right
candidate and overlap output rectangles tile the band from the camera's
output center to the next camera's output center. -/
theorem cover_band_iff (lc vl vr ow orc x : Int)
    (horc : orc = lc + (vl + vr - ow))
    (hop : 0 < ow) (howl : ow < vl) (howr : ow < vr) :
    (((lc ≤ x ∧ x < lc + (vl - ow)) ∨
        (lc + vl ≤ x ∧ x < lc + vl + (vr - ow))) ∨
      (lc + vl - ow ≤ x ∧ x < lc + vl - ow + ow)) ↔ (lc ≤ x ∧ x < orc) := by
  omega

/-! ## Claim C1: the tiling of the output frame -/

/-- Claim C1: after a successful run of all four stages on a valid
configuration (crop and centers resolved; the marks ring-ordered with
a unique wrap camera `j` whose output center is 0; per-pair quantities
in 32-bit validity ranges; each pair's overlap width positive and
strictly inside both cameras' valid bands), `estimate_overlap` and
`update_copy_areas` succeed, the destination x-ranges of the produced
copy areas together with the output overlap rectangles cover exactly
the output columns `[0, output_width)`, and the copy areas'
destination x-ranges are pairwise disjoint. -/
theorem claim_C1 (s : StitcherState) (j : Nat)
    (hN : 2 ≤ s.camera_num)
    (hcrop : s.is_crop_set = true)
    (hmark : s.is_center_marked = true)
    (hov : s.is_overlap_set = false)
    (hca : s.copy_areas = [])
    (hW : (s.output_width : Int) < 1073741824)
    (hj : j < s.camera_num)
    (hj0 : (s.center_marks j).out_center_x = 0)
    (hmono : ∀ t, t + 1 < s.camera_num →
      (s.center_marks ((j + t) % s.camera_num)).out_center_x
        < (s.center_marks ((j + t + 1) % s.camera_num)).out_center_x)
    (hlt : ∀ i, i < s.camera_num → (s.center_marks i).out_center_x < s.output_width)
    (hrange : ∀ i, i < s.camera_num → pair_in_range s i)
    (hpos : ∀ i, i < s.camera_num →
      0 < owP s i ∧ owP s i < vlwP s i ∧ owP s i < vrwP s i) :
    (estimate_overlap s).1 = XCamReturn.noError ∧
    (update_copy_areas (estimate_overlap s).2).1 = XCamReturn.noError ∧
    (∀ x : Int,
      (0 ≤ x ∧ x < (s.output_width : Int)) ↔
        (covers_list (update_copy_areas (estimate_overlap s).2).2.copy_areas x ∨
          ∃ i, i < s.camera_num ∧
            rect_covers ((estimate_overlap s).2.overlap_info i).out_area x)) ∧
    (update_copy_areas (estimate_overlap s).2).2.copy_areas.Pairwise disjointX := by
  have hN1 : 0 < s.camera_num := by omega
  obtain ⟨hseg1, hseg2, hseg3⟩ := ring_segments s j hN1 hj hj0 hmono hlt
  have hoverlap : ∀ i, i < s.camera_num →
      ∃ o, overlap_pair s i = some o ∧
        o.left.width = owP s i ∧ o.right.width = owP s i ∧ o.out_area.width = owP s i ∧
        o.right.pos_x = ((s.crop_info (next_cam s i)).left : Int) ∧
        o.left.pos_x = ((s.center_marks i).slice_center_x : Int) + vlwP s i - owP s i ∧
        o.out_area.pos_x = ((s.center_marks i).out_center_x : Int) + vlwP s i - owP s i := by
    intro i hi
    obtain ⟨hop, howl, _⟩ := hpos i hi
    have hlcb : ((s.center_marks i).out_center_x : Int) < 1073741824 := by
      have h1 : ((s.center_marks i).out_center_x : Int) < (s.output_width : Int) := by
        exact_mod_cast hlt i hi
      omega
    exact overlap_pair_some_full s i (hrange i hi) hop (le_of_lt howl) hlcb
  have hnn : ∀ i, i < s.camera_num → overlap_pair s i ≠ none := by
    intro i hi
    obtain ⟨o, ho, _⟩ := hoverlap i hi
    rw [ho]
    exact Option.some_ne_none o
  obtain ⟨hcode1, g, hstate, hwrites, _⟩ :=
    estimate_overlap_success_state s hov hcrop hmark hnn
  set S := (estimate_overlap s).2 with hSdef
  have hSnum : S.camera_num = s.camera_num := by rw [hstate]
  have hSW : S.output_width = s.output_width := by rw [hstate]
  have hSmarks : S.center_marks = s.center_marks := by rw [hstate]
  have hSca : S.copy_areas = [] := by
    rw [hstate]
    exact hca
  have hSic : S.is_crop_set = true := by
    rw [hstate]
    exact hcrop
  have hSio : S.is_overlap_set = true := by rw [hstate]
  have hSov : ∀ i, i < s.camera_num → ∀ o, overlap_pair s i = some o →
      S.overlap_info i = o := by
    intro i hi o ho
    rw [hstate]
    exact hwrites i hi o ho
  have hSnext : ∀ i, next_cam S i = next_cam s i := by
    intro i
    unfold next_cam
    rw [hSnum]
  have hSorcx : ∀ i, out_right_center S i = out_right_center s i := by
    intro i
    unfold out_right_center
    rw [hSnext, hSmarks, hSW]
  have hcond : 1 < S.camera_num ∧ S.is_crop_set ∧ S.is_overlap_set := by
    refine ⟨by rw [hSnum]; omega, ?_, ?_⟩
    · rw [hSic]
    · rw [hSio]
  have hupd : update_copy_areas S
      = (XCamReturn.noError,
        { S with copy_areas := S.copy_areas ++ merge_all (tmp_areas S) }) := by
    unfold update_copy_areas
    rw [if_pos hcond]
  have hclist : (update_copy_areas S).2.copy_areas = merge_all (tmp_areas S) := by
    rw [hupd]
    show S.copy_areas ++ _ = _
    rw [hSca]
    exact List.nil_append _
  have hcode2 : (update_copy_areas S).1 = XCamReturn.noError := by
    rw [hupd]
  have hfacts : ∀ i, i < s.camera_num →
      camera_candidates S i = [left_candidate S i, right_candidate S i] ∧
      (left_candidate S i).out_area.pos_x = ((s.center_marks i).out_center_x : Int) ∧
      (left_candidate S i).out_area.width = vlwP s i - owP s i ∧
      (right_candidate S i).out_area.pos_x
        = ((s.center_marks i).out_center_x : Int) + vlwP s i ∧
      (right_candidate S i).out_area.width = vrwP s i - owP s i ∧
      (S.overlap_info i).out_area.pos_x
        = ((s.center_marks i).out_center_x : Int) + vlwP s i - owP s i ∧
      (S.overlap_info i).out_area.width = owP s i := by
    intro i hi
    obtain ⟨o, ho, hw1, hw2, hw3, hrp, hlp, hoop⟩ := hoverlap i hi
    obtain ⟨hcb, hlb, hvl0, hvl1, hvr0, hvr1, hmw0, hmw1⟩ := hrange i hi
    obtain ⟨hop, howl, howr⟩ := hpos i hi
    obtain ⟨hsg1, hsg2, hsg3⟩ := hseg1 i hi
    have hSoi : S.overlap_info i = o := hSov i hi o ho
    have hlcb : ((s.center_marks i).out_center_x : Int) < 1073741824 := by
      have h1 : ((s.center_marks i).out_center_x : Int) < (s.output_width : Int) := by
        exact_mod_cast hlt i hi
      omega
    have hmwrel : mwP s i = vlwP s i + vrwP s i - owP s i := by
      unfold owP
      ring
    have horcxlc : (out_right_center s i : Int)
        = ((s.center_marks i).out_center_x : Int) + mwP s i := by
      unfold mwP
      ring
    have hi32lc : i32 ((s.center_marks i).out_center_x : Int)
        = ((s.center_marks i).out_center_x : Int) :=
      i32_id (Int.natCast_nonneg _) (by omega)
    have hi32sc : i32 ((s.center_marks i).slice_center_x : Int)
        = ((s.center_marks i).slice_center_x : Int) :=
      i32_id (Int.natCast_nonneg _) (by omega)
    have hcnb : ((s.center_marks (next_cam s i)).slice_center_x : Int) < 2147483648 := by
      have hvr : vrwP s i = ((s.center_marks (next_cam s i)).slice_center_x : Int)
          - ((s.crop_info (next_cam s i)).left : Int) := rfl
      omega
    have hi32cn : i32 ((s.center_marks (next_cam s i)).slice_center_x : Int)
        = ((s.center_marks (next_cam s i)).slice_center_x : Int) :=
      i32_id (Int.natCast_nonneg _) hcnb
    have hLpos : (left_candidate S i).out_area.pos_x
        = ((s.center_marks i).out_center_x : Int) := by
      rw [(left_candidate_out S i).1, hSmarks, hi32lc]
    have hLw : (left_candidate S i).out_area.width = vlwP s i - owP s i := by
      rw [(left_candidate_out S i).2, hSoi, hSmarks, hlp, hi32sc]
      ring
    have hRw : (right_candidate S i).out_area.width = vrwP s i - owP s i := by
      rw [(right_candidate_out S i).1, hSoi, hSmarks, hSnext, hrp, hw2, hi32cn]
      unfold vrwP
      ring
    have hkey : (out_right_center s i : Int) - (vrwP s i - owP s i)
        = ((s.center_marks i).out_center_x : Int) + vlwP s i := by
      rw [horcxlc, hmwrel]
      ring
    have hbR : (((s.center_marks i).out_center_x : Int) + vlwP s i) + (vrwP s i - owP s i)
        ≤ (s.output_width : Int) := by
      have e : (((s.center_marks i).out_center_x : Int) + vlwP s i) + (vrwP s i - owP s i)
          = (out_right_center s i : Int) := by
        rw [horcxlc, hmwrel]
        ring
      rw [e]
      exact hsg3
    have hbL : ((s.center_marks i).out_center_x : Int) + (vlwP s i - owP s i)
        ≤ (s.output_width : Int) := by
      calc ((s.center_marks i).out_center_x : Int) + (vlwP s i - owP s i)
          ≤ (((s.center_marks i).out_center_x : Int) + (vlwP s i - owP s i)) + vrwP s i :=
            le_add_of_nonneg_right hvr0
        _ = (((s.center_marks i).out_center_x : Int) + vlwP s i) + (vrwP s i - owP s i) := by
            ring
        _ ≤ (s.output_width : Int) := hbR
    have hRpos : (right_candidate S i).out_area.pos_x
        = ((s.center_marks i).out_center_x : Int) + vlwP s i := by
      rw [(right_candidate_out S i).2, hSoi, hSmarks, hSnext, hSorcx, hrp, hw2, hi32cn]
      rw [show ((s.center_marks (next_cam s i)).slice_center_x : Int)
          - (((s.crop_info (next_cam s i)).left : Int) + owP s i)
          = vrwP s i - owP s i by unfold vrwP; ring]
      rw [hkey]
      exact i32_u32_id (add_nonneg hsg2 hvl0)
        (lt_of_lt_of_le (add_lt_add hlcb hvl1) (by norm_num))
    have hWi : i32 ((S.output_width : Int)) = (s.output_width : Int) := by
      rw [hSW]
      exact i32_id (Int.natCast_nonneg _) (lt_trans hW (by norm_num))
    have hsplitL : split_area_by_out (left_candidate S i) S.output_width = none := by
      apply split_none_of
      rw [hLpos, hLw, hWi]
      exact not_lt.mpr hbL
    have hsplitR : split_area_by_out (right_candidate S i) S.output_width = none := by
      apply split_none_of
      rw [hRpos, hRw, hWi]
      exact not_lt.mpr hbR
    have hcands := camera_candidates_eq S i hsplitL hsplitR
    have hOpos : (S.overlap_info i).out_area.pos_x
        = ((s.center_marks i).out_center_x : Int) + vlwP s i - owP s i := by
      rw [hSoi]
      exact hoop
    have hOw : (S.overlap_info i).out_area.width = owP s i := by
      rw [hSoi]
      exact hw3
    exact ⟨hcands, hLpos, hLw, hRpos, hRw, hOpos, hOw⟩
  have htmp : tmp_areas S = (List.range s.camera_num).flatMap (camera_candidates S) := by
    unfold tmp_areas
    rw [hSnum]
  have hwid : ∀ a ∈ tmp_areas S, 0 ≤ a.out_area.width := by
    intro a ha
    rw [htmp] at ha
    obtain ⟨i, hi, hai⟩ := List.mem_flatMap.mp ha
    have hiN : i < s.camera_num := List.mem_range.mp hi
    obtain ⟨hcands, hLpos, hLw, hRpos, hRw, _, _⟩ := hfacts i hiN
    obtain ⟨hop, howl, howr⟩ := hpos i hiN
    rw [hcands] at hai
    rcases List.mem_cons.mp hai with rfl | hai2
    · rw [hLw]
      exact sub_nonneg.mpr (le_of_lt howl)
    · have hbR : a = right_candidate S i := by simpa using hai2
      subst hbR
      rw [hRw]
      exact sub_nonneg.mpr (le_of_lt howr)
  have hcov1 : ∀ i, i < s.camera_num → ∀ x : Int,
      ((covers_list (camera_candidates S i) x ∨
          rect_covers (S.overlap_info i).out_area x)
        ↔ (((s.center_marks i).out_center_x : Int) ≤ x ∧
            x < (out_right_center s i : Int))) := by
    intro i hi x
    obtain ⟨hcands, hLpos, hLw, hRpos, hRw, hOpos, hOw⟩ := hfacts i hi
    obtain ⟨hop, howl, howr⟩ := hpos i hi
    have hmwrel : mwP s i = vlwP s i + vrwP s i - owP s i := by
      unfold owP
      ring
    have horcxlc : (out_right_center s i : Int)
        = ((s.center_marks i).out_center_x : Int) + mwP s i := by
      unfold mwP
      ring
    rw [hcands, covers_list_cons, covers_list_cons]
    simp only [iff_false_intro (covers_list_nil x), or_false]
    unfold area_covers rect_covers
    rw [hLpos, hLw, hRpos, hRw, hOpos, hOw]
    exact cover_band_iff ((s.center_marks i).out_center_x : Int) (vlwP s i) (vrwP s i)
      (owP s i) ((out_right_center s i : Int)) x (by rw [horcxlc, hmwrel]) hop howl howr
  have hcovall : ∀ x : Int, ((0 ≤ x ∧ x < (s.output_width : Int)) ↔
      (covers_list (tmp_areas S) x ∨
        ∃ i, i < s.camera_num ∧ rect_covers (S.overlap_info i).out_area x)) := by
    intro x
    rw [htmp, covers_flatMap]
    constructor
    · rintro ⟨hx0, hxW⟩
      obtain ⟨i, hi, h1, h2⟩ := hseg2 x hx0 hxW
      rcases (hcov1 i hi x).mpr ⟨h1, h2⟩ with hc | hc
      · exact Or.inl ⟨i, List.mem_range.mpr hi, hc⟩
      · exact Or.inr ⟨i, hi, hc⟩
    · rintro (⟨i, hi, hc⟩ | ⟨i, hi, hc⟩)
      · have hiN := List.mem_range.mp hi
        have hx := (hcov1 i hiN x).mp (Or.inl hc)
        obtain ⟨hg1, hg2, hg3⟩ := hseg1 i hiN
        exact ⟨le_trans hg2 hx.1, lt_of_lt_of_le hx.2 hg3⟩
      · have hx := (hcov1 i hi x).mp (Or.inr hc)
        obtain ⟨hg1, hg2, hg3⟩ := hseg1 i hi
        exact ⟨le_trans hg2 hx.1, lt_of_lt_of_le hx.2 hg3⟩
  have hsubseg : ∀ i, i < s.camera_num → ∀ a ∈ camera_candidates S i, ∀ x : Int,
      area_covers a x → ((s.center_marks i).out_center_x : Int) ≤ x ∧
        x < (out_right_center s i : Int) := by
    intro i hi a ha x hax
    exact (hcov1 i hi x).mp (Or.inl ⟨a, ha, hax⟩)
  have hpw : (tmp_areas S).Pairwise disjointX := by
    rw [htmp]
    apply pairwise_flatMap
    · have hbase : (List.range s.camera_num).Pairwise (· < ·) :=
        List.pairwise_lt_range s.camera_num

      refine hbase.imp_of_mem ?_
      intro i i2 hi hi2 hlt2 a ha b hb x hx
      obtain ⟨hax, hbx⟩ := hx
      have h1 := hsubseg i (List.mem_range.mp hi) a ha x hax
      have h2 := hsubseg i2 (List.mem_range.mp hi2) b hb x hbx
      rcases hseg3 i i2 (List.mem_range.mp hi) (List.mem_range.mp hi2) (Nat.ne_of_lt hlt2)
        with h | h
      · exact absurd h2.1 (not_le.mpr (lt_of_lt_of_le h1.2 h))
      · exact absurd h1.1 (not_le.mpr (lt_of_lt_of_le h2.2 h))
    · intro i hi
      have hiN := List.mem_range.mp hi
      obtain ⟨hcands, hLpos, hLw, hRpos, hRw, _, _⟩ := hfacts i hiN
      obtain ⟨hop, howl, howr⟩ := hpos i hiN
      rw [hcands]
      refine List.Pairwise.cons ?_ (List.pairwise_singleton _ _)
      intro b hb x hx
      have hbR : b = right_candidate S i := by simpa using hb
      subst hbR
      obtain ⟨h1, h2⟩ := hx
      unfold area_covers rect_covers at h1 h2
      rw [hLpos, hLw] at h1
      rw [hRpos, hRw] at h2
      exact absurd h2.1 (not_le.mpr (lt_of_lt_of_le h1.2
        (add_le_add_left (sub_le_self _ (le_of_lt hop)) _)))
  refine ⟨hcode1, hcode2, ?_, ?_⟩
  · intro x
    rw [hclist, merge_all_covers (tmp_areas S) hwid x]
    exact hcovall x
  · rw [hclist]
    exact merge_all_pairwise (tmp_areas S) hwid hpw

theorem claim_C1_witness :
    (estimate_overlap stateD).1 = XCamReturn.noError ∧
    (update_copy_areas (estimate_overlap stateD).2).1 = XCamReturn.noError ∧
    (∀ x : Int,
      (0 ≤ x ∧ x < (stateD.output_width : Int)) ↔
        (covers_list (update_copy_areas (estimate_overlap stateD).2).2.copy_areas x ∨
          ∃ i, i < stateD.camera_num ∧
            rect_covers ((estimate_overlap stateD).2.overlap_info i).out_area x)) ∧
    (update_copy_areas (estimate_overlap stateD).2).2.copy_areas.Pairwise disjointX :=
  claim_C1 stateD 1 (by decide) (by decide) (by decide) (by decide) (by decide)
    (by decide) (by decide) (by decide)
    (by
      intro t ht
      have h0 : t = 0 := Nat.lt_one_iff.mp (Nat.lt_of_succ_lt_succ ht)
      subst h0
      decide)
    (by decide) (by decide) (by decide)

end XCam
